import Mathlib

/-!
Verification of the Neotron OS program loader/executor (`src/program.rs`)
and VGA console (`src/vgaconsole.rs`) against their specification.

Modelling conventions:
* machine memory is a total function from byte addresses to byte values;
  pointers are plain byte addresses;
* fallible or panicking operations return `Option`/`Except`;
* external collaborators (filesystem, BIOS audio, the executed program
  itself) enter as parameters describing their observable behaviour.
-/

set_option maxHeartbeats 1000000
set_option maxRecDepth 20000

namespace NeotronOS

/-- Byte-addressed memory: address to byte value. -/
def Mem : Type := Nat → Nat

/-- The different kinds of state each open handle can be in
(`OpenHandle` in `program.rs`); the open-file payload is abstracted to an
identifier. -/
inductive OpenHandle where
  | StdIn
  | Stdout
  | StdErr
  | File (f : Nat)
  | Closed
  | Audio
deriving DecidableEq, Repr

/-- Ways in which loading a program can fail (`Error` in `program.rs`); the
payloads of the filesystem and ELF variants are abstracted away. -/
inductive Error where
  | ProgramTooLarge
  | Filesystem
  | Elf
  | NothingLoaded
deriving DecidableEq, Repr

/-- The Transient Program Area (`TransientProgramArea` in `program.rs`).
`memory_bottom` and `memory_top` are the byte addresses held in the two
`*mut u32` fields. -/
structure TransientProgramArea where
  memory_bottom : Nat
  memory_top : Nat
  last_entry : Nat
deriving DecidableEq, Repr

namespace TransientProgramArea

/-- `TransientProgramArea::new(start, length_in_bytes)` on a hosted build,
where `official_tpa_start` is `None` and no bottom adjustment happens.
`memory_top` is `start.add(length_in_bytes / 4)` in `u32` units. -/
def new (start length_in_bytes : Nat) : TransientProgramArea :=
  { memory_bottom := start
    memory_top := start + (length_in_bytes / 4) * 4
    last_entry := 0 }

/-- `size_words`: `memory_top.offset_from(memory_bottom)` counted in `u32`
words. -/
def size_words (tpa : TransientProgramArea) : Nat :=
  (tpa.memory_top - tpa.memory_bottom) / 4

/-- `steal_top(size)`. `none` models the `panic!("Stole too much from
TPA!")` path. Otherwise `stolen_words` words are copied from
`memory_bottom` to the computed `new_top` and `new_top` is returned as the
pointer. The source computes `new_top` into a local and never assigns
`self.memory_top`, so the returned TPA has unchanged bounds. -/
def steal_top (tpa : TransientProgramArea) (mem : Mem) (size : Nat) :
    Option (TransientProgramArea × Mem × Nat) :=
  let stolen_words := (size + 3) / 4
  if stolen_words ≥ tpa.size_words then none
  else
    let new_top := tpa.memory_top - stolen_words * 4
    let mem' : Mem := fun a =>
      if new_top ≤ a ∧ a < new_top + stolen_words * 4 then
        mem (tpa.memory_bottom + (a - new_top))
      else mem a
    some (tpa, mem', new_top)

/-- `restore_top(size)`: grows `memory_top` by `(size + 3) / 4` words. -/
def restore_top (tpa : TransientProgramArea) (size : Nat) :
    TransientProgramArea :=
  { tpa with memory_top := tpa.memory_top + ((size + 3) / 4) * 4 }

/-- `copy_program(program)`: fail with `ProgramTooLarge` when the program is
longer than the arena's byte view (`as_slice_u8`), otherwise copy it
verbatim to the bottom of the arena. The TPA fields, untouched by the
source, are returned alongside the result and the memory. -/
def copy_program (tpa : TransientProgramArea) (mem : Mem)
    (program : List Nat) : Except Error Unit × TransientProgramArea × Mem :=
  if program.length > tpa.size_words * 4 then
    (.error .ProgramTooLarge, tpa, mem)
  else
    (.ok (), tpa,
      fun a =>
        if tpa.memory_bottom ≤ a ∧ a < tpa.memory_bottom + program.length then
          program.getD (a - tpa.memory_bottom) 0
        else mem a)

end TransientProgramArea

/-- A parsed ELF program header (`neotron_loader::ProgramHeader`), as
consumed by `load_program`. All fields are the `u32` values the loader
reads. -/
structure ProgramHeader where
  p_vaddr : Nat
  p_type : Nat
  p_offset : Nat
  p_filesz : Nat
  p_memsz : Nat
deriving DecidableEq, Repr

/-- `neotron_loader::ProgramHeader::PT_LOAD`. -/
def PT_LOAD : Nat := 1

/-- One iteration of the `load_program` segment loop: when the header is
loadable (`p_vaddr` at or above `memory_bottom` and `p_type == PT_LOAD`),
zero `p_memsz` bytes at `p_vaddr`, then overwrite the first `p_filesz` of
them with the file bytes at `p_offset` (the `uncached_read`). `none` models
the slice panic of `&mut ram[0..filesz]` when `p_filesz > p_memsz`. -/
def load_segment (bottom : Nat) (file : Nat → Nat) (mem : Mem)
    (ph : ProgramHeader) : Option Mem :=
  if bottom ≤ ph.p_vaddr ∧ ph.p_type = PT_LOAD then
    if ph.p_filesz ≤ ph.p_memsz then
      some fun a =>
        if ph.p_vaddr ≤ a ∧ a < ph.p_vaddr + ph.p_memsz then
          if a < ph.p_vaddr + ph.p_filesz then
            file (ph.p_offset + (a - ph.p_vaddr))
          else 0
        else mem a
    else none
  else some mem

/-- The segment loop plus the final `self.last_entry = loader.e_entry()` of
`TransientProgramArea::load_program`, taking the already-parsed program
headers and declared entry point as parameters (opening the file and
parsing the ELF container are external collaborators). -/
def load_program (tpa : TransientProgramArea) (mem : Mem)
    (headers : List ProgramHeader) (entry : Nat) (file : Nat → Nat) :
    Option (TransientProgramArea × Mem) :=
  (headers.foldlM (load_segment tpa.memory_bottom file) mem).map
    fun m => ({ tpa with last_entry := entry }, m)

/-- The state affected by `TransientProgramArea::execute`: the TPA itself,
the global `OPEN_HANDLES` table, and arena memory. -/
@[ext]
structure ExecState where
  tpa : TransientProgramArea
  handles : Fin 8 → OpenHandle
  mem : Mem

/-- Behaviour of one program run: given the handle table and memory it sees
at startup, the four packed argument strings and the argument count, it
determines the handle table and memory when it returns together with its
exit code. -/
def ProgramRun : Type :=
  (Fin 8 → OpenHandle) → Mem → List String → Nat →
    (Fin 8 → OpenHandle) × Mem × Int

/-- `TransientProgramArea::execute(args)`: reject when `last_entry == 0`,
install stdio in slots 0-2, pack up to four arguments (missing ones become
empty strings), run the program, then force every handle slot to `Closed`
and clear `last_entry`. The pair holds the returned `Result` and the state
after the call. -/
def execute (st : ExecState) (prog : ProgramRun) (args : List String) :
    Except Error Int × ExecState :=
  if st.tpa.last_entry = 0 then (.error .NothingLoaded, st)
  else
    let handles1 : Fin 8 → OpenHandle := fun i =>
      if i = 0 then .StdIn else if i = 1 then .Stdout
      else if i = 2 then .StdErr else st.handles i
    let ffi_args := [args.getD 0 "", args.getD 1 "", args.getD 2 "",
      args.getD 3 ""]
    let r := prog handles1 st.mem ffi_args args.length
    (.ok r.2.2,
      { tpa := { st.tpa with last_entry := 0 }
        handles := fun _ => .Closed
        mem := r.2.1 })

/-- `FileSource::BUFFER_LEN`. -/
def BUFFER_LEN : Nat := 128

/-- The mutable state of a `FileSource`: the read-ahead cache and the file
offset it was last filled from. The open file itself is modelled as a total
byte function passed separately. -/
@[ext]
structure FileSourceState where
  buffer : Nat → Nat
  offset_cached : Option Nat

/-- `FileSource::new`: empty cache. -/
def FileSourceState.new : FileSourceState :=
  { buffer := fun _ => 0, offset_cached := none }

/-- `FileSource::uncached_read(offset, out_buffer)`: a positioned read
delivering the file bytes `[offset, offset + len)`. -/
def uncached_read (file : Nat → Nat) (offset len : Nat) : List Nat :=
  (List.range len).map fun i => file (offset + i)

/-- The cache-hit test of `<&FileSource as Source>::read`: both the first
and the last byte of the current chunk lie inside
`offset_cached .. offset_cached + BUFFER_LEN`. -/
def cache_hit (st : FileSourceState) (offset k : Nat) : Option Nat :=
  match st.offset_cached with
  | some c =>
    if c ≤ offset ∧ offset < c + BUFFER_LEN ∧
        c ≤ offset + k - 1 ∧ offset + k - 1 < c + BUFFER_LEN then
      some c
    else none
  | none => none

/-- The chunk loop of `<&FileSource as Source>::read`, with explicit fuel
(each iteration consumes at least one byte of `out_buffer`, so
`out_buffer.length` is always enough). On a cache hit the source executes
`return Ok(())`, so the chunks after the current one keep their previous
contents (`out_buffer.drop k`); on a miss the cache is refilled from
`offset` and the chunk is copied out of its front. -/
def source_read_loop (file : Nat → Nat) :
    Nat → FileSourceState → Nat → List Nat → List Nat × FileSourceState
  | 0, st, _, out_buffer => (out_buffer, st)
  | fuel + 1, st, offset, out_buffer =>
    if out_buffer.length = 0 then (out_buffer, st)
    else
      match cache_hit st offset (min BUFFER_LEN out_buffer.length) with
      | some c =>
        ((List.range (min BUFFER_LEN out_buffer.length)).map
            (fun i => st.buffer (offset - c + i)) ++
          out_buffer.drop (min BUFFER_LEN out_buffer.length), st)
      | none =>
        let rest := source_read_loop file fuel
          ⟨fun i => file (offset + i), some offset⟩
          (offset + min BUFFER_LEN out_buffer.length)
          (out_buffer.drop (min BUFFER_LEN out_buffer.length))
        ((List.range (min BUFFER_LEN out_buffer.length)).map
            (fun i => file (offset + i)) ++ rest.1, rest.2)

/-- `<&FileSource as Source>::read(offset, out_buffer)`: the bytes placed in
`out_buffer` and the cache state afterwards. -/
def source_read (file : Nat → Nat) (st : FileSourceState) (offset : Nat)
    (out_buffer : List Nat) : List Nat × FileSourceState :=
  source_read_loop file out_buffer.length st offset out_buffer

/-- The cache really holds the file bytes at the cached offset. Established
by `FileSource::new` (no cached offset) and by every refill. -/
def cacheValid (file : Nat → Nat) (st : FileSourceState) : Prop :=
  ∀ c, st.offset_cached = some c →
    ∀ i, i < BUFFER_LEN → st.buffer i = file (c + i)

/-- Error codes of the host ABI (`neotron_api::Error`). -/
inductive ApiError where
  | Unimplemented
  | BadHandle
  | InvalidPath
  | InvalidArg
  | OutOfMemory
  | DeviceSpecific
deriving DecidableEq, Repr

/-- `api_write(fd, buffer)`. The console paths always succeed (serial
errors are discarded); the filesystem and audio collaborators' outcomes are
the two boolean parameters. -/
def api_write (file_write_ok audio_write_ok : Bool)
    (handles : Fin 8 → OpenHandle) (fd : Nat) : Except ApiError Unit :=
  if h : fd < 8 then
    match handles ⟨fd, h⟩ with
    | .StdErr | .Stdout => .ok ()
    | .File _ => if file_write_ok then .ok () else .error .DeviceSpecific
    | .Audio => if audio_write_ok then .ok () else .error .DeviceSpecific
    | .StdIn | .Closed => .error .BadHandle
  else .error .BadHandle

/-- `api_read(fd, buffer)`. `buffer_valid` models `buffer.as_mut_slice()`
being available; the input queue, filesystem and audio outcomes are
parameters. -/
def api_read (buffer_valid : Bool) (stdin_count : Nat)
    (file_read : Except Unit Nat) (audio_read : Except Unit Nat)
    (handles : Fin 8 → OpenHandle) (fd : Nat) : Except ApiError Nat :=
  if h : fd < 8 then
    match handles ⟨fd, h⟩ with
    | .StdIn =>
      if buffer_valid then .ok stdin_count else .error .DeviceSpecific
    | .File _ =>
      if buffer_valid then
        match file_read with
        | .ok n => .ok n
        | .error _ => .error .DeviceSpecific
      else .error .InvalidArg
    | .Audio =>
      match audio_read with
      | .ok n => .ok n
      | .error _ => .error .DeviceSpecific
    | .Stdout | .StdErr | .Closed => .error .BadHandle
  else .error .BadHandle

/-- Outcomes of the BIOS audio calls used by `api_ioctl`: `get_config`
yields a sample rate and format nibble (`none` covers both the FFI error
and an unrecognised sample format), `set_config_ok` the success of setting
a configuration, `get_space` the available space. -/
structure BiosAudio where
  get_config : Option (Nat × Nat)
  set_config_ok : Bool
  get_space : Option Nat
deriving DecidableEq, Repr

/-- `api_ioctl(fd, command, value)`: audio commands 0, 1 and 2 as in the
source; every other handle/command combination falls to the final `_` arm,
which returns `InvalidArg`. -/
def api_ioctl (bios : BiosAudio) (handles : Fin 8 → OpenHandle)
    (fd command value : Nat) : Except ApiError Nat :=
  if h : fd < 8 then
    match handles ⟨fd, h⟩, command with
    | .Audio, 0 =>
      match bios.get_config with
      | some rn => .ok (rn.1 + rn.2 * 2 ^ 60)
      | none => .error .DeviceSpecific
    | .Audio, 1 =>
      if value / 2 ^ 60 ≤ 3 then
        if bios.set_config_ok then .ok 0 else .error .DeviceSpecific
      else .error .InvalidArg
    | .Audio, 2 =>
      match bios.get_space with
      | some n => .ok n
      | none => .error .DeviceSpecific
    | _, _ => .error .InvalidArg
  else .error .BadHandle

end NeotronOS

namespace NeotronOS

/-- `neotron_common_bios::video::Attr`: a packed byte with the blink flag in
bit 7, the background colour in bits 4-6 and the foreground colour in bits
0-3 (the layout is documented by the repository's own buffer-dump tests). -/
structure Attr where
  fg : Nat
  bg : Nat
  blink : Bool
deriving DecidableEq, Repr

namespace Attr

/-- `Attr::new`. -/
def new (fg bg : Nat) (blink : Bool) : Attr := ⟨fg, bg, blink⟩

/-- `Attr::set_fg`. -/
def set_fg (a : Attr) (fg : Nat) : Attr := { a with fg := fg }

/-- `Attr::set_bg`. -/
def set_bg (a : Attr) (bg : Nat) : Attr := { a with bg := bg }

/-- `Attr::as_u8`. -/
def as_u8 (a : Attr) : Nat := (if a.blink then 128 else 0) + a.bg * 16 + a.fg

end Attr

-- `TextForegroundColour` constants (standard VGA colour indices, confirmed
-- by the repository's buffer-dump tests).
namespace TextForegroundColour

def BLACK : Nat := 0
def BLUE : Nat := 1
def GREEN : Nat := 2
def CYAN : Nat := 3
def RED : Nat := 4
def MAGENTA : Nat := 5
def BROWN : Nat := 6
def LIGHT_GRAY : Nat := 7
def DARK_GRAY : Nat := 8
def LIGHT_BLUE : Nat := 9
def LIGHT_GREEN : Nat := 10
def LIGHT_CYAN : Nat := 11
def LIGHT_RED : Nat := 12
def PINK : Nat := 13
def YELLOW : Nat := 14
def WHITE : Nat := 15

end TextForegroundColour

-- `TextBackgroundColour` constants.
namespace TextBackgroundColour

def BLACK : Nat := 0
def BLUE : Nat := 1
def GREEN : Nat := 2
def CYAN : Nat := 3
def RED : Nat := 4
def MAGENTA : Nat := 5
def BROWN : Nat := 6
def LIGHT_GRAY : Nat := 7

end TextBackgroundColour

/-- `ConsoleInner` from `vgaconsole.rs`. The cell buffer at `addr` is the
function `buffer` from byte offsets (relative to `addr`, signed exactly like
the `isize` offset arithmetic of the source) to byte values. -/
@[ext]
structure ConsoleInner where
  buffer : Int → Nat
  width : Int
  height : Int
  row : Int
  col : Int
  attr : Attr
  bright : Bool
  reverse : Bool
  cursor_wanted : Bool
  cursor_depth : Nat
  cursor_holder : Option Nat

namespace ConsoleInner

/-- `DEFAULT_ATTR`: light gray on black, no blink. -/
def DEFAULT_ATTR : Attr :=
  Attr.new TextForegroundColour.LIGHT_GRAY TextBackgroundColour.BLACK false

/-- The attribute byte `write_at` really stores: with reverse video in
force the foreground and background are swapped at write time (the
background truncated to three bits), otherwise the current attribute is
used unchanged. -/
def write_attr (st : ConsoleInner) : Attr :=
  if st.reverse then Attr.new st.attr.bg (st.attr.fg % 8) false
  else st.attr

/-- `write_at(row, col, glyph, is_cursor)`. The two bounds `assert!`s and
the cursor-holder re-entrancy assert (active while not panicking and not
drawing the cursor itself) become `none`; then the glyph byte and the
attribute byte are written at byte offset `((row * width) + col) * 2`. -/
def write_at (st : ConsoleInner) (row col : Int) (glyph : Nat)
    (is_cursor : Bool) : Option ConsoleInner :=
  if row < st.height ∧ col < st.width ∧
      (is_cursor = true ∨ st.cursor_holder = none) then
    let written : Int → Nat := fun o =>
      if o = (row * st.width + col) * 2 then glyph
      else if o = (row * st.width + col) * 2 + 1 then st.write_attr.as_u8
      else st.buffer o
    some { st with buffer := written }
  else none

/-- `read_at(row, col)`: same asserts as `write_at`, then the glyph byte at
the cell. -/
def read_at (st : ConsoleInner) (row col : Int) : Option Nat :=
  if row < st.height ∧ col < st.width ∧ st.cursor_holder = none then
    some (st.buffer ((row * st.width + col) * 2))
  else none

/-- `write(glyph)`: write at the current position. -/
def write (st : ConsoleInner) (glyph : Nat) : Option ConsoleInner :=
  st.write_at st.row st.col glyph false

/-- `read()`: read at the current position. -/
def read (st : ConsoleInner) : Option Nat :=
  st.read_at st.row st.col

/-- The body of `cursor_enable` after the depth decrement: at depth zero
with the cursor wanted and no glyph saved, realise the cursor — on-screen,
save the real glyph and draw an underscore; off-screen, make up a saved
space without drawing anything. -/
def cursor_enable_body (st : ConsoleInner) : Option ConsoleInner :=
  if st.cursor_depth = 0 ∧ st.cursor_wanted = true ∧
      st.cursor_holder = none then
    if 0 ≤ st.row ∧ st.row < st.height ∧ 0 ≤ st.col ∧ st.col < st.width then
      match st.read with
      | some value =>
        (st.write_at st.row st.col 95 true).map fun st2 =>
          { st2 with cursor_holder := some value }
      | none => none
    else some { st with cursor_holder := some 32 }
  else some st

/-- `cursor_enable`: decrement the depth counter (`none` is the `u8`
underflow panic at depth zero in a checked build), then run the
conditional redraw on the decremented state. -/
def cursor_enable (st : ConsoleInner) : Option ConsoleInner :=
  if st.cursor_depth = 0 then none
  else cursor_enable_body { st with cursor_depth := st.cursor_depth - 1 }

/-- `cursor_disable`: take the saved glyph, restore it when the cursor is
on-screen, then increment the depth counter. -/
def cursor_disable (st : ConsoleInner) : Option ConsoleInner :=
  let step : Option ConsoleInner :=
    match st.cursor_holder with
    | some glyph =>
      let st := { st with cursor_holder := none }
      if 0 ≤ st.row ∧ st.row < st.height ∧ 0 ≤ st.col ∧ st.col < st.width then
        st.write glyph
      else some st
    | none => some st
  step.map fun st2 => { st2 with cursor_depth := st2.cursor_depth + 1 }

/-- `move_cursor_relative`: relative move clamped to the visible screen. -/
def move_cursor_relative (st : ConsoleInner) (rows cols : Int) :
    ConsoleInner :=
  let row := st.row + rows
  let col := st.col + cols
  let row := if row < 0 then 0 else row
  let col := if col < 0 then 0 else col
  let row := if row ≥ st.height then st.height - 1 else row
  let col := if col ≥ st.width then st.width - 1 else col
  { st with row := row, col := col }

/-- `move_cursor_absolute`: absolute move, clamped via
`move_cursor_relative(0, 0)`. -/
def move_cursor_absolute (st : ConsoleInner) (rows cols : Int) :
    ConsoleInner :=
  move_cursor_relative { st with row := rows, col := cols } 0 0

/-- `home`: move to the origin. -/
def home (st : ConsoleInner) : ConsoleInner :=
  st.move_cursor_absolute 0 0

/-- `0, 1, ..., n-1` as `Int`s; empty when `n ≤ 0` (a Rust `0..n` range over
`isize`). -/
def intRange (n : Int) : List Int := (List.range n.toNat).map fun i => (i : Int)

/-- `a, a+1, ..., b-1` as `Int`s (a Rust `a..b` range over `isize`). -/
def intRangeFromTo (a b : Int) : List Int :=
  (List.range (b - a).toNat).map fun i => a + (i : Int)

/-- All `(row, col)` pairs of `rows × cols` in row-major order (the shape of
every erase/clear loop nest in the source). -/
def cellList (rows cols : List Int) : List (Int × Int) :=
  rows.flatMap fun r => cols.map fun c => (r, c)

/-- Write the same glyph at each cell of `cells` in order via
`write_at(row, col, glyph, false)`, failing if any single write fails. -/
def write_cells (st : ConsoleInner) (cells : List (Int × Int)) (glyph : Nat) :
    Option ConsoleInner :=
  cells.foldlM (fun s rc => s.write_at rc.1 rc.2 glyph false) st

/-- `scroll_page`: block-copy rows `[1, height)` up one row, then blank the
bottom row (with the current attribute). `none` models the wild copy when
`height < 1`, where the byte count `row_len_bytes * (height - 1)` underflows
`usize`. -/
def scroll_page (st : ConsoleInner) : Option ConsoleInner :=
  if st.width * 2 * (st.height - 1) < 0 then none
  else
    write_cells
      { st with buffer := fun o =>
          if 0 ≤ o ∧ o < st.width * 2 * (st.height - 1) then
            st.buffer (o + st.width * 2)
          else st.buffer o }
      (cellList [st.height - 1] (intRange st.width)) 32

/-- The second statement of `scroll_as_required`: after the column wrap, a
row exactly at `height` steps back one row and scrolls the page. -/
def scroll_row_check (st : ConsoleInner) : Option ConsoleInner :=
  if st.row = st.height then ({ st with row := st.row - 1 }).scroll_page
  else some st

/-- `scroll_as_required`: `assert!(row <= height)` is `none`; column
overflow wraps to the next row, and a row exactly at `height` scrolls the
page. -/
def scroll_as_required (st : ConsoleInner) : Option ConsoleInner :=
  if st.row ≤ st.height then
    scroll_row_check
      (if st.col ≥ st.width then { st with col := 0, row := st.row + 1 }
       else st)
  else none

/-- `ConsoleInner::clear`: blank every cell (with the current attribute) in
row-major order, then home the cursor. -/
def clear (st : ConsoleInner) : Option ConsoleInner :=
  (write_cells st (cellList (intRange st.height) (intRange st.width))
    32).map home

/-- `ConsoleInner::set_attr`. -/
def set_attr (st : ConsoleInner) (attr : Attr) : ConsoleInner :=
  { st with attr := attr }

/-- `map_char_to_glyph`: Unicode scalar value (as a codepoint) to Code Page
850 glyph, `?` for anything unmapped. -/
def map_char_to_glyph (input : Nat) : Nat :=
  if 0x20 ≤ input ∧ input ≤ 0x7E then input
  else
    match input with
    | 0x00A0 => 255
    | 0x00A1 => 173
    | 0x00A2 => 189
    | 0x00A3 => 156
    | 0x00A4 => 207
    | 0x00A5 => 190
    | 0x00A6 => 221
    | 0x00A7 => 245
    | 0x00A8 => 249
    | 0x00A9 => 184
    | 0x00AA => 166
    | 0x00AB => 174
    | 0x00AC => 170
    | 0x00AD => 240
    | 0x00AE => 169
    | 0x00AF => 238
    | 0x00B0 => 248
    | 0x00B1 => 241
    | 0x00B2 => 253
    | 0x00B3 => 252
    | 0x00B4 => 239
    | 0x00B5 => 230
    | 0x00B6 => 244
    | 0x00B7 => 250
    | 0x00B8 => 247
    | 0x00B9 => 251
    | 0x00BA => 167
    | 0x00BB => 175
    | 0x00BC => 172
    | 0x00BD => 171
    | 0x00BE => 243
    | 0x00BF => 168
    | 0x00C0 => 183
    | 0x00C1 => 181
    | 0x00C2 => 182
    | 0x00C3 => 199
    | 0x00C4 => 142
    | 0x00C5 => 143
    | 0x00C6 => 146
    | 0x00C7 => 128
    | 0x00C8 => 212
    | 0x00C9 => 144
    | 0x00CA => 210
    | 0x00CB => 211
    | 0x00CC => 222
    | 0x00CD => 214
    | 0x00CE => 215
    | 0x00CF => 216
    | 0x00D0 => 209
    | 0x00D1 => 165
    | 0x00D2 => 227
    | 0x00D3 => 224
    | 0x00D4 => 226
    | 0x00D5 => 229
    | 0x00D6 => 153
    | 0x00D7 => 158
    | 0x00D8 => 157
    | 0x00D9 => 235
    | 0x00DA => 233
    | 0x00DB => 234
    | 0x00DC => 154
    | 0x00DD => 237
    | 0x00DE => 232
    | 0x00DF => 225
    | 0x00E0 => 133
    | 0x00E1 => 160
    | 0x00E2 => 131
    | 0x00E3 => 198
    | 0x00E4 => 132
    | 0x00E5 => 134
    | 0x00E6 => 145
    | 0x00E7 => 135
    | 0x00E8 => 138
    | 0x00E9 => 130
    | 0x00EA => 136
    | 0x00EB => 137
    | 0x00EC => 141
    | 0x00ED => 161
    | 0x00EE => 140
    | 0x00EF => 139
    | 0x00F0 => 208
    | 0x00F1 => 164
    | 0x00F2 => 149
    | 0x00F3 => 162
    | 0x00F4 => 147
    | 0x00F5 => 228
    | 0x00F6 => 148
    | 0x00F7 => 246
    | 0x00F8 => 155
    | 0x00F9 => 151
    | 0x00FA => 163
    | 0x00FB => 150
    | 0x00FC => 129
    | 0x00FD => 236
    | 0x00FE => 231
    | 0x00FF => 152
    | 0x0131 => 213
    | 0x0192 => 159
    | 0x2017 => 242
    | 0x2022 => 7
    | 0x203C => 19
    | 0x2190 => 27
    | 0x2191 => 24
    | 0x2192 => 26
    | 0x2193 => 25
    | 0x2194 => 29
    | 0x2195 => 18
    | 0x21A8 => 23
    | 0x221F => 28
    | 0x2302 => 127
    | 0x2500 => 196
    | 0x2502 => 179
    | 0x250C => 218
    | 0x2510 => 191
    | 0x2514 => 192
    | 0x2518 => 217
    | 0x251C => 195
    | 0x2524 => 180
    | 0x252C => 194
    | 0x2534 => 193
    | 0x253C => 197
    | 0x2550 => 205
    | 0x2551 => 186
    | 0x2554 => 201
    | 0x2557 => 187
    | 0x255A => 200
    | 0x255D => 188
    | 0x2560 => 204
    | 0x2563 => 185
    | 0x2566 => 203
    | 0x2569 => 202
    | 0x256C => 206
    | 0x2580 => 223
    | 0x2584 => 220
    | 0x2588 => 219
    | 0x2591 => 176
    | 0x2592 => 177
    | 0x2593 => 178
    | 0x25A0 => 254
    | 0x25AC => 22
    | 0x25B2 => 30
    | 0x25BA => 16
    | 0x25BC => 31
    | 0x25C4 => 17
    | 0x25CB => 9
    | 0x25D8 => 8
    | 0x25D9 => 10
    | 0x263A => 1
    | 0x263B => 2
    | 0x263C => 15
    | 0x2640 => 12
    | 0x2642 => 11
    | 0x2660 => 6
    | 0x2663 => 5
    | 0x2665 => 3
    | 0x2666 => 4
    | 0x266A => 13
    | 0x266B => 14
    | _ => 63

/-- `vte::Perform::print`: scroll if required, write the mapped glyph at the
current position, advance the column. -/
def print (st : ConsoleInner) (ch : Nat) : Option ConsoleInner :=
  st.scroll_as_required.bind fun st1 =>
    (st1.write (map_char_to_glyph ch)).map fun st2 =>
      { st2 with col := st2.col + 1 }

/-- `vte::Perform::execute`: scroll if required, then interpret backspace,
carriage return and line feed; other C0/C1 codes are ignored. -/
def execute (st : ConsoleInner) (byte : Nat) : Option ConsoleInner :=
  st.scroll_as_required.map fun st1 =>
    if byte = 8 then
      if st1.col > 0 then { st1 with col := st1.col - 1 } else st1
    else if byte = 13 then { st1 with col := 0 }
    else if byte = 10 then { st1 with col := 0, row := st1.row + 1 }
    else st1

/-- One parameter of the `m` (Select Graphic Rendition) arm of
`csi_dispatch`. -/
def sgr_param (st : ConsoleInner) (p : Nat) : ConsoleInner :=
  if p = 0 then
    { st with attr := DEFAULT_ATTR, bright := false, reverse := false }
  else if p = 1 then { st with bright := true }
  else if p = 7 then { st with reverse := true }
  else if p = 22 then { st with bright := false }
  else if p = 30 then
    { st with attr := st.attr.set_fg TextForegroundColour.BLACK }
  else if p = 31 then
    { st with attr := st.attr.set_fg TextForegroundColour.RED }
  else if p = 32 then
    { st with attr := st.attr.set_fg TextForegroundColour.GREEN }
  else if p = 33 then
    { st with attr := st.attr.set_fg TextForegroundColour.BROWN }
  else if p = 34 then
    { st with attr := st.attr.set_fg TextForegroundColour.BLUE }
  else if p = 35 then
    { st with attr := st.attr.set_fg TextForegroundColour.MAGENTA }
  else if p = 36 then
    { st with attr := st.attr.set_fg TextForegroundColour.CYAN }
  else if p = 37 ∨ p = 39 then
    { st with attr := st.attr.set_fg TextForegroundColour.LIGHT_GRAY }
  else if p = 40 then
    { st with attr := st.attr.set_bg TextBackgroundColour.BLACK }
  else if p = 41 then
    { st with attr := st.attr.set_bg TextBackgroundColour.RED }
  else if p = 42 then
    { st with attr := st.attr.set_bg TextBackgroundColour.GREEN }
  else if p = 43 then
    { st with attr := st.attr.set_bg TextBackgroundColour.BROWN }
  else if p = 44 then
    { st with attr := st.attr.set_bg TextBackgroundColour.BLUE }
  else if p = 45 then
    { st with attr := st.attr.set_bg TextBackgroundColour.MAGENTA }
  else if p = 46 then
    { st with attr := st.attr.set_bg TextBackgroundColour.CYAN }
  else if p = 47 ∨ p = 49 then
    { st with attr := st.attr.set_bg TextBackgroundColour.LIGHT_GRAY }
  else st

/-- The bright-promotion step run after all parameters of one `m` sequence:
with the bright flag in force the foreground is replaced by its brighter
sibling, with an explicit arm per promotable colour and every other colour
left alone. -/
def promote_bright (st : ConsoleInner) : ConsoleInner :=
  if st.bright = true then
    if st.attr.fg = TextForegroundColour.BLACK then
      { st with attr := st.attr.set_fg TextForegroundColour.DARK_GRAY }
    else if st.attr.fg = TextForegroundColour.RED then
      { st with attr := st.attr.set_fg TextForegroundColour.LIGHT_RED }
    else if st.attr.fg = TextForegroundColour.GREEN then
      { st with attr := st.attr.set_fg TextForegroundColour.LIGHT_GREEN }
    else if st.attr.fg = TextForegroundColour.BROWN then
      { st with attr := st.attr.set_fg TextForegroundColour.YELLOW }
    else if st.attr.fg = TextForegroundColour.BLUE then
      { st with attr := st.attr.set_fg TextForegroundColour.LIGHT_BLUE }
    else if st.attr.fg = TextForegroundColour.MAGENTA then
      { st with attr := st.attr.set_fg TextForegroundColour.PINK }
    else if st.attr.fg = TextForegroundColour.CYAN then
      { st with attr := st.attr.set_fg TextForegroundColour.LIGHT_CYAN }
    else if st.attr.fg = TextForegroundColour.LIGHT_GRAY then
      { st with attr := st.attr.set_fg TextForegroundColour.WHITE }
    else st
  else st

/-- The whole `m` arm of `csi_dispatch`: fold the parameters, then promote
the foreground if the bright flag ended up set. (The sub-parameter bail-out
of the source is unreachable because collected parameter groups are never
empty.) -/
def sgr (st : ConsoleInner) (params : List Nat) : ConsoleInner :=
  promote_bright (params.foldl sgr_param st)

/-- The parameter defaulting of `csi_dispatch`: parameter `idx` of the
sequence, or `1` when absent (`unwrap_or(&1)`), as an `isize`. -/
def param_or_one (params : List Nat) (idx : Nat) : Int :=
  Int.ofNat (params.getD idx 1)

/-- A literal `0` parameter treated as `1` (the relative/absolute motion
arms of `csi_dispatch`). -/
def param_nonzero (params : List Nat) (idx : Nat) : Int :=
  if param_or_one params idx = 0 then 1 else param_or_one params idx

/-- `vte::Perform::csi_dispatch` on `ConsoleInner`: `params` are the
collected single-value parameter groups, `intermediates` the collected
intermediate bytes, `action` the final byte. -/
def csi_dispatch (st : ConsoleInner) (params : List Nat)
    (intermediates : List Nat) (action : Nat) : Option ConsoleInner :=
  if action = 109 then some (st.sgr params)
  else if action = 65 then
    some (st.move_cursor_relative (-param_nonzero params 0) 0)
  else if action = 66 then
    some (st.move_cursor_relative (param_nonzero params 0) 0)
  else if action = 67 then
    some (st.move_cursor_relative 0 (param_nonzero params 0))
  else if action = 68 then
    some (st.move_cursor_relative 0 (-param_nonzero params 0))
  else if action = 69 then
    some (st.move_cursor_absolute (st.row + param_nonzero params 0) 0)
  else if action = 70 then
    some (st.move_cursor_absolute (st.row - param_nonzero params 0) 0)
  else if action = 71 then
    some (st.move_cursor_absolute st.row (param_nonzero params 0 - 1))
  else if action = 72 ∨ action = 102 then
    some (st.move_cursor_absolute (param_nonzero params 0 - 1)
      (param_nonzero params 1 - 1))
  else if action = 74 then
    if param_or_one params 0 = 0 then
      write_cells st
        ((cellList (intRange st.height) (intRange st.width)).filter
          fun rc => decide (rc.1 > st.row ∨ (rc.1 = st.row ∧ rc.2 ≥ st.col)))
        32
    else if param_or_one params 0 = 1 then
      write_cells st
        ((cellList (intRange st.height) (intRange st.width)).filter
          fun rc => decide (rc.1 < st.row ∨ (rc.1 = st.row ∧ rc.2 ≤ st.col)))
        32
    else if param_or_one params 0 = 2 then
      write_cells st (cellList (intRange st.height) (intRange st.width)) 32
    else some st
  else if action = 75 then
    if param_or_one params 0 = 0 then
      write_cells st (cellList [st.row] (intRangeFromTo st.col st.width)) 32
    else if param_or_one params 0 = 1 then
      write_cells st (cellList [st.row] (intRangeFromTo 0 (st.col + 1))) 32
    else if param_or_one params 0 = 2 then
      write_cells st (cellList [st.row] (intRangeFromTo 0 st.width)) 32
    else some st
  else if action = 104 then
    if intermediates.head? = some 63 then
      some { st with cursor_wanted := true }
    else some st
  else if action = 108 then
    if intermediates.head? = some 63 then
      some { st with cursor_wanted := false }
    else some st
  else some st

end ConsoleInner

end NeotronOS

namespace NeotronOS

/-- The in-flight state of a CSI sequence inside the `vte` parser: collected
single-value parameter groups, the parameter being accumulated, whether we
are still in the entry phase (no parameter or intermediate collected),
whether an intermediate has been collected (digits afterwards abort the
sequence), the collected intermediates, and the overflow-ignore flag that
`csi_dispatch` receives (and the console discards). -/
structure CsiState where
  params : List Nat
  current : Nat
  in_entry : Bool
  after_inter : Bool
  intermediates : List Nat
  ignoring : Bool
deriving DecidableEq, Repr

/-- The `vte` parser states exercised by this console: ground text, an
escape introducer (with or without intermediates), CSI collection, the
aborted-CSI state that swallows the sequence, and pending UTF-8
continuation bytes. -/
inductive ParserState where
  | ground
  | escape
  | escapeInter
  | csi (cs : CsiState)
  | csiIgnore
  | utf8 (pending : Nat) (acc : Nat)
deriving DecidableEq, Repr

/-- `VgaConsole`: the console state plus its ANSI parser. -/
@[ext]
structure VgaConsole where
  inner : ConsoleInner
  parser : ParserState

/-- `VgaConsole::new(addr, width, height)`: default attribute, cursor at
the origin, overlay idle, parser in ground state; `init` is whatever bytes
sit at the supplied buffer address. -/
def VgaConsole.new (init : Int → Nat) (width height : Int) : VgaConsole :=
  { inner :=
      { buffer := init
        width := width
        height := height
        row := 0
        col := 0
        attr := ConsoleInner.DEFAULT_ATTR
        bright := false
        reverse := false
        cursor_wanted := false
        cursor_holder := none
        cursor_depth := 0 }
    parser := .ground }

/-- `u16` saturating parameter accumulation of the `vte` parser. -/
def satParam (current digit : Nat) : Nat := min 65535 (current * 10 + digit)

/-- The empty CSI collection state entered on `ESC [`. -/
def CsiState.start : CsiState :=
  { params := [], current := 0, in_entry := true, after_inter := false
    intermediates := [], ignoring := false }

/-- One CSI collection step (states `CsiEntry`/`CsiParam` of the DEC
parser): digits and `;` build parameters (capped at 16, saturating at
`u16`), `:` and out-of-place private markers abort the sequence, `<=>?`
markers and `0x20..0x2f` bytes are collected as intermediates (at most
two). -/
def csiStep (cs : CsiState) (b : Nat) : ParserState :=
  if 48 ≤ b ∧ b ≤ 57 then
    if cs.after_inter then .csiIgnore
    else if cs.params.length ≥ 16 then .csi { cs with ignoring := true }
    else
      .csi
        { cs with
          current := satParam cs.current (b - 48)
          in_entry := false }
  else if b = 59 then
    if cs.after_inter then .csiIgnore
    else if cs.params.length ≥ 16 then .csi { cs with ignoring := true }
    else
      .csi
        { cs with
          params := cs.params ++ [cs.current]
          current := 0
          in_entry := false }
  else if b = 58 then .csiIgnore
  else if 32 ≤ b ∧ b ≤ 47 then
    if cs.intermediates.length ≥ 2 then
      .csi
        { cs with
          ignoring := true
          after_inter := true
          in_entry := false }
    else
      .csi
        { cs with
          intermediates := cs.intermediates ++ [b]
          after_inter := true
          in_entry := false }
  else if 60 ≤ b ∧ b ≤ 63 then
    if cs.in_entry then
      if cs.intermediates.length ≥ 2 then
        .csi { cs with ignoring := true, in_entry := false }
      else
        .csi
          { cs with
            intermediates := cs.intermediates ++ [b]
            in_entry := false }
    else .csiIgnore
  else .csi cs

/-- The parameter list passed to `csi_dispatch` when the final byte
arrives: the in-progress parameter is pushed (subject to the cap of 16). -/
def CsiState.dispatchParams (cs : CsiState) : List Nat :=
  if cs.params.length ≥ 16 then cs.params else cs.params ++ [cs.current]

/-- One step of `vte::Parser::advance` with `ConsoleInner` as the
performer. C0 controls execute from every non-UTF-8 state; `ESC` restarts
an escape and `CAN`/`SUB` abort to ground; printables print from ground;
byte values at and above `0x80` follow the parser's UTF-8 decoder (malformed
input becomes the replacement character, which maps to `?`). -/
def advance (vc : VgaConsole) (b : Nat) : Option VgaConsole :=
  match vc.parser with
  | .ground =>
    if b = 27 then some { vc with parser := .escape }
    else if b ≤ 31 then
      (vc.inner.execute b).map fun i => { vc with inner := i }
    else if b ≤ 126 then
      (vc.inner.print b).map fun i => { vc with inner := i }
    else if b = 127 then some vc
    else if b ≤ 191 then
      (vc.inner.print 0xFFFD).map fun i => { vc with inner := i }
    else if b ≤ 223 then some { vc with parser := .utf8 1 (b % 32) }
    else if b ≤ 239 then some { vc with parser := .utf8 2 (b % 16) }
    else if b ≤ 247 then some { vc with parser := .utf8 3 (b % 8) }
    else
      (vc.inner.print 0xFFFD).map fun i => { vc with inner := i }
  | .escape =>
    if b = 27 then some { vc with parser := .escape }
    else if b = 24 ∨ b = 26 then some { vc with parser := .ground }
    else if b ≤ 31 then
      (vc.inner.execute b).map fun i => { vc with inner := i }
    else if 32 ≤ b ∧ b ≤ 47 then some { vc with parser := .escapeInter }
    else if b = 91 then some { vc with parser := .csi CsiState.start }
    else if b ≤ 126 then some { vc with parser := .ground }
    else some vc
  | .escapeInter =>
    if b = 27 then some { vc with parser := .escape }
    else if b = 24 ∨ b = 26 then some { vc with parser := .ground }
    else if b ≤ 31 then
      (vc.inner.execute b).map fun i => { vc with inner := i }
    else if 32 ≤ b ∧ b ≤ 47 then some vc
    else if b ≤ 126 then some { vc with parser := .ground }
    else some vc
  | .csi cs =>
    if b = 27 then some { vc with parser := .escape }
    else if b = 24 ∨ b = 26 then some { vc with parser := .ground }
    else if b ≤ 31 then
      (vc.inner.execute b).map fun i => { vc with inner := i }
    else if 64 ≤ b ∧ b ≤ 126 then
      (vc.inner.csi_dispatch cs.dispatchParams cs.intermediates b).map
        fun i => { inner := i, parser := .ground }
    else if b = 127 then some vc
    else some { vc with parser := csiStep cs b }
  | .csiIgnore =>
    if b = 27 then some { vc with parser := .escape }
    else if b = 24 ∨ b = 26 then some { vc with parser := .ground }
    else if b ≤ 31 then
      (vc.inner.execute b).map fun i => { vc with inner := i }
    else if 64 ≤ b ∧ b ≤ 126 then some { vc with parser := .ground }
    else some vc
  | .utf8 pending acc =>
    if 128 ≤ b ∧ b ≤ 191 then
      match pending with
      | 0 =>
        (vc.inner.print 0xFFFD).map fun i => { inner := i, parser := .ground }
      | 1 =>
        (vc.inner.print (acc * 64 + b % 64)).map fun i =>
          { inner := i, parser := .ground }
      | p + 2 =>
        some { vc with parser := .utf8 (p + 1) (acc * 64 + b % 64) }
    else
      (vc.inner.print 0xFFFD).map fun i => { inner := i, parser := .ground }

/-- `VgaConsole::write_bstr`: disable the cursor overlay, push every byte
through the parser, re-enable the overlay. -/
def write_bstr (vc : VgaConsole) (bstr : List Nat) : Option VgaConsole :=
  vc.inner.cursor_disable.bind fun i =>
    (bstr.foldlM advance { vc with inner := i }).bind fun vc2 =>
      vc2.inner.cursor_enable.map fun i2 => { vc2 with inner := i2 }

/-- `<VgaConsole as core::fmt::Write>::write_str`: `write_bstr` plus the
explicit `assert!(cursor_holder.is_none())` after disabling. -/
def write_str (vc : VgaConsole) (data : List Nat) : Option VgaConsole :=
  vc.inner.cursor_disable.bind fun i =>
    if i.cursor_holder = none then
      (data.foldlM advance { vc with inner := i }).bind fun vc2 =>
        vc2.inner.cursor_enable.map fun i2 => { vc2 with inner := i2 }
    else none

/-- `VgaConsole::clear`: cursor-bracketed full clear. -/
def console_clear (vc : VgaConsole) : Option VgaConsole :=
  vc.inner.cursor_disable.bind fun i =>
    i.clear.bind fun i2 =>
      i2.cursor_enable.map fun i3 => { vc with inner := i3 }

/-- `VgaConsole::change_mode`: `geometry` is the pair of
`mode.text_height()` and `mode.text_width()` (an external mode table); for
a text mode the geometry is installed and the console cleared, non-text
modes are ignored. -/
def change_mode (vc : VgaConsole) (geometry : Option (Int × Int)) :
    Option VgaConsole :=
  match geometry with
  | some hw =>
    console_clear
      { vc with inner := { vc.inner with height := hw.1, width := hw.2 } }
  | none => some vc

/-- The public console entry points quantified over by the cursor-overlay
claim. -/
inductive ConsoleOp where
  | write_bstr (bstr : List Nat)
  | write_str (data : List Nat)
  | clear
  | change_mode (geometry : Option (Int × Int))

/-- Run one public console operation. -/
def runOp (vc : VgaConsole) : ConsoleOp → Option VgaConsole
  | .write_bstr bs => write_bstr vc bs
  | .write_str ds => write_str vc ds
  | .clear => console_clear vc
  | .change_mode g => change_mode vc g

/-- Run a sequence of public console operations. -/
def runOps (vc : VgaConsole) (ops : List ConsoleOp) : Option VgaConsole :=
  ops.foldlM runOp vc

/-- The cursor position addresses a real cell of the buffer. -/
def onScreen (st : ConsoleInner) : Prop :=
  0 ≤ st.row ∧ st.row < st.height ∧ 0 ≤ st.col ∧ st.col < st.width

instance (st : ConsoleInner) : Decidable (onScreen st) := by
  unfold onScreen; infer_instance

/-- The glyph byte stored at the cell under the cursor. -/
def glyphUnderCursor (st : ConsoleInner) : Nat :=
  st.buffer ((st.row * st.width + st.col) * 2)

/-- The cursor-overlay invariant the code maintains between public calls:
the overlay bracket is closed, a glyph is saved exactly when the cursor is
wanted, a saved glyph with the cursor on-screen means the underscore is
really in the buffer at the cursor cell, and a saved glyph with the cursor
off-screen is the made-up space (nothing was drawn). -/
def CursorInvariant (vc : VgaConsole) : Prop :=
  vc.inner.cursor_depth = 0 ∧
  (vc.inner.cursor_holder.isSome ↔ vc.inner.cursor_wanted = true) ∧
  ∀ g, vc.inner.cursor_holder = some g →
    (onScreen vc.inner → glyphUnderCursor vc.inner = 95) ∧
    (¬ onScreen vc.inner → g = 32)

end NeotronOS

namespace NeotronOS

/-- Concrete file used by the loader witness: byte `i` is `i + 10`. -/
def c3_file : Nat → Nat := fun i => i + 10

/-- Concrete loadable header for the loader witness: `PT_LOAD` at virtual
address 0, file offset 8, file size 2, memory size 4. -/
def c3_header : ProgramHeader := ⟨0, 1, 8, 2, 4⟩

/-- The memory produced by loading `c3_header` from `c3_file` over memory
that holds 7 everywhere. -/
def c3_loaded : Mem := fun a =>
  if 0 ≤ a ∧ a < 0 + 4 then
    if a < 0 + 2 then c3_file (8 + (a - 0)) else 0
  else 7

/-- The console state `VgaConsole::clear` produces from an overlay-idle
state (depth zero, nothing saved, cursor not wanted): every cell blanked
with the attribute currently in force (after reverse), cursor at the
origin, everything else untouched. -/
def clear_result (vc : VgaConsole) : VgaConsole :=
  { vc with inner :=
    { vc.inner with
      buffer := fun o =>
        if ∃ rc ∈ ConsoleInner.cellList (ConsoleInner.intRange vc.inner.height)
            (ConsoleInner.intRange vc.inner.width),
            o = (rc.1 * vc.inner.width + rc.2) * 2 then 32
        else if ∃ rc ∈ ConsoleInner.cellList
            (ConsoleInner.intRange vc.inner.height)
            (ConsoleInner.intRange vc.inner.width),
            o = (rc.1 * vc.inner.width + rc.2) * 2 + 1 then
          vc.inner.write_attr.as_u8
        else vc.inner.buffer o
      row := 0
      col := 0 } }

/-- The bright-sibling table transcribed from the specification's own
words (black to dark-gray, red to light-red, green to light-green, brown to
yellow, blue to light-blue, magenta to pink, cyan to light-cyan, light-gray
to white; anything else unchanged), used to compare the code's promotion
chain against the documented table. -/
def bright_sibling (fg : Nat) : Nat :=
  if fg = TextForegroundColour.BLACK then TextForegroundColour.DARK_GRAY
  else if fg = TextForegroundColour.RED then TextForegroundColour.LIGHT_RED
  else if fg = TextForegroundColour.GREEN then TextForegroundColour.LIGHT_GREEN
  else if fg = TextForegroundColour.BROWN then TextForegroundColour.YELLOW
  else if fg = TextForegroundColour.BLUE then TextForegroundColour.LIGHT_BLUE
  else if fg = TextForegroundColour.MAGENTA then TextForegroundColour.PINK
  else if fg = TextForegroundColour.CYAN then TextForegroundColour.LIGHT_CYAN
  else if fg = TextForegroundColour.LIGHT_GRAY then TextForegroundColour.WHITE
  else fg

/-- Concrete console for the C8 witness: 2 by 2, cursor parked at (1, 1),
blue background in force, overlay idle. -/
def c8_console : ConsoleInner :=
  ⟨fun _ => 0, 2, 2, 1, 1,
    Attr.new TextForegroundColour.LIGHT_GRAY TextBackgroundColour.BLUE false,
    false, false, false, 0, none⟩

/-- C1 (code bug): evaluation at the failing input. On the arena
`[0x1000, 0x1010)`, `steal_top(4)` succeeds and returns the pointer
`0x100C`, but leaves `memory_top` at `0x1010` — the claim (and the
function's own doc comment, which says the TPA is made `size` bytes
shorter) requires `0x100C`. The following `restore_top(4)` then moves
`memory_top` up to `0x1014`, which differs from the original `0x1010`, so
the steal/restore pair does not round-trip. -/
theorem c1_steal_restore_evaluation :
    (TransientProgramArea.steal_top ⟨0x1000, 0x1010, 0⟩ (fun _ => 0) 4).map
        (fun r => (r.1.memory_top,
          (TransientProgramArea.restore_top r.1 4).memory_top, r.2.2)) =
      some (0x1010, 0x1014, 0x100C) ∧ (0x1014 : Nat) ≠ 0x1010 := by
  exact ⟨rfl, by decide⟩

/-- C2: for every call to `execute` that proceeds past the `NothingLoaded`
check, after the call returns — for any program behaviour and any exit
code — all 8 slots of the open-handle table are `Closed` and `last_entry`
equals 0. -/
theorem c2_execute_handle_hygiene (st : ExecState) (prog : ProgramRun)
    (args : List String) (h : st.tpa.last_entry ≠ 0) :
    (∀ i, ((execute st prog args).2).handles i = OpenHandle.Closed) ∧
      ((execute st prog args).2).tpa.last_entry = 0 := by
  unfold execute
  simp [h]

/-- Witness for C2 at a concrete staged arena and a program that leaves
every handle as `StdIn`. -/
theorem c2_execute_handle_hygiene_witness :
    (∀ i, ((execute ⟨⟨0, 16, 4⟩, fun _ => OpenHandle.StdIn, fun _ => 0⟩
        (fun h m _ _ => (h, m, 3)) []).2).handles i = OpenHandle.Closed) ∧
      ((execute ⟨⟨0, 16, 4⟩, fun _ => OpenHandle.StdIn, fun _ => 0⟩
        (fun h m _ _ => (h, m, 3)) []).2).tpa.last_entry = 0 :=
  c2_execute_handle_hygiene _ _ _ (by decide)

/-- C5: `execute` returns `Err(NothingLoaded)` exactly when
`last_entry == 0` at the time of the call, and in that case it returns
before modifying anything — handle table, `last_entry`, arena bounds and
arena contents are all unchanged. -/
theorem c5_execute_error_atomicity (st : ExecState) (prog : ProgramRun)
    (args : List String) :
    ((execute st prog args).1 = Except.error Error.NothingLoaded ↔
        st.tpa.last_entry = 0) ∧
      (st.tpa.last_entry = 0 → (execute st prog args).2 = st) := by
  unfold execute
  by_cases h : st.tpa.last_entry = 0 <;> simp [h]

/-- Witness for C5 at a concrete empty arena. -/
theorem c5_execute_error_atomicity_witness :
    (execute ⟨⟨0, 16, 0⟩, fun _ => OpenHandle.Closed, fun _ => 0⟩
        (fun h m _ _ => (h, m, 0)) []).2 =
      ⟨⟨0, 16, 0⟩, fun _ => OpenHandle.Closed, fun _ => 0⟩ :=
  (c5_execute_error_atomicity _ _ _).2 rfl

/-- C10: `copy_program` never changes `memory_bottom`, `memory_top` or
`last_entry`; it writes at most the first `program.len()` bytes of the
arena; on the `ProgramTooLarge` error the arena bytes are fully unchanged;
and an `execute` following only a `copy_program` on a fresh arena returns
`Err(NothingLoaded)`. -/
theorem c10_copy_program_frame (tpa : TransientProgramArea) (mem : Mem)
    (program : List Nat) :
    (TransientProgramArea.copy_program tpa mem program).2.1 = tpa ∧
      (∀ a, a < tpa.memory_bottom ∨ tpa.memory_bottom + program.length ≤ a →
        (TransientProgramArea.copy_program tpa mem program).2.2 a = mem a) ∧
      ((TransientProgramArea.copy_program tpa mem program).1 =
          Except.error Error.ProgramTooLarge →
        ∀ a, (TransientProgramArea.copy_program tpa mem program).2.2 a = mem a) ∧
      (∀ (start len : Nat) (prog : ProgramRun) (args : List String)
          (handles : Fin 8 → OpenHandle) (mem0 : Mem),
        (execute
          ⟨(TransientProgramArea.copy_program
              (TransientProgramArea.new start len) mem0 program).2.1,
            handles,
            (TransientProgramArea.copy_program
              (TransientProgramArea.new start len) mem0 program).2.2⟩
          prog args).1 = Except.error Error.NothingLoaded) := by
  refine ⟨?_, ?_, ?_, ?_⟩
  · unfold TransientProgramArea.copy_program
    split <;> rfl
  · intro a ha
    unfold TransientProgramArea.copy_program
    split
    · rfl
    · simp only
      rw [if_neg]
      omega
  · intro herr a
    unfold TransientProgramArea.copy_program at herr ⊢
    by_cases hlen : program.length > tpa.size_words * 4
    · rw [if_pos hlen]
    · rw [if_neg hlen] at herr
      exact absurd herr (by simp)
  · intro start len prog args handles mem0
    have hfresh : (TransientProgramArea.copy_program
        (TransientProgramArea.new start len) mem0 program).2.1 =
        TransientProgramArea.new start len := by
      unfold TransientProgramArea.copy_program
      split <;> rfl
    unfold execute
    rw [hfresh]
    simp [TransientProgramArea.new]

/-- Witness for C10 at a concrete arena, program and follow-up `execute`. -/
theorem c10_copy_program_frame_witness :
    (TransientProgramArea.copy_program ⟨0, 8, 0⟩ (fun _ => 9) [1, 2]).2.2 5 = 9 ∧
      (execute ⟨(TransientProgramArea.copy_program
          (TransientProgramArea.new 0 8) (fun _ => 9) [1, 2]).2.1,
        fun _ => OpenHandle.Closed,
        (TransientProgramArea.copy_program
          (TransientProgramArea.new 0 8) (fun _ => 9) [1, 2]).2.2⟩
        (fun h m _ _ => (h, m, 0)) []).1 = Except.error Error.NothingLoaded :=
  ⟨(c10_copy_program_frame ⟨0, 8, 0⟩ (fun _ => 9) [1, 2]).2.1 5 (by decide),
   (c10_copy_program_frame ⟨0, 8, 0⟩ (fun _ => 9) [1, 2]).2.2.2 0 8
     (fun h m _ _ => (h, m, 0)) [] (fun _ => OpenHandle.Closed) (fun _ => 9)⟩

/-- C6 counterexample: with every handle slot `Closed`, `api_ioctl` on
handle 0 with command 0 returns `InvalidArg`, not the `BadHandle` the claim
requires for a mismatched handle kind. -/
theorem c6_ioctl_closed_gives_invalid_arg :
    api_ioctl ⟨none, false, none⟩ (fun _ => OpenHandle.Closed) 0 0 0 =
        Except.error ApiError.InvalidArg ∧
      api_ioctl ⟨none, false, none⟩ (fun _ => OpenHandle.Closed) 0 0 0 ≠
        Except.error ApiError.BadHandle := by
  have heq : api_ioctl ⟨none, false, none⟩ (fun _ => OpenHandle.Closed) 0 0 0 =
      Except.error ApiError.InvalidArg := rfl
  refine ⟨heq, ?_⟩
  rw [heq]
  intro hcontra
  simp at hcontra

/-- C6 amended: `api_write` on a `StdIn` or `Closed` entry and `api_read`
on a `Stdout`, `StdErr` or `Closed` entry return `BadHandle`; `api_ioctl`
on an in-range handle whose entry/command pair is not one of the three
Audio commands returns `InvalidArg`, not `BadHandle`; all three callbacks
return `BadHandle` for indices outside the 8-entry table. -/
theorem c6_handle_dispatch_amended (fw aw bv : Bool) (sc : Nat)
    (fr ar : Except Unit Nat) (bios : BiosAudio)
    (handles : Fin 8 → OpenHandle) (fd command value : Nat) (h8 : fd < 8) :
    ((handles ⟨fd, h8⟩ = OpenHandle.StdIn ∨
        handles ⟨fd, h8⟩ = OpenHandle.Closed) →
      api_write fw aw handles fd = Except.error ApiError.BadHandle) ∧
    ((handles ⟨fd, h8⟩ = OpenHandle.Stdout ∨
        handles ⟨fd, h8⟩ = OpenHandle.StdErr ∨
        handles ⟨fd, h8⟩ = OpenHandle.Closed) →
      api_read bv sc fr ar handles fd = Except.error ApiError.BadHandle) ∧
    ((handles ⟨fd, h8⟩ ≠ OpenHandle.Audio ∨ 3 ≤ command) →
      api_ioctl bios handles fd command value =
        Except.error ApiError.InvalidArg) ∧
    (∀ fd', 8 ≤ fd' →
      api_write fw aw handles fd' = Except.error ApiError.BadHandle ∧
      api_read bv sc fr ar handles fd' = Except.error ApiError.BadHandle ∧
      api_ioctl bios handles fd' command value =
        Except.error ApiError.BadHandle) := by
  refine ⟨?_, ?_, ?_, ?_⟩
  · rintro (hh | hh) <;> simp [api_write, h8, hh]
  · rintro (hh | hh | hh) <;> simp [api_read, h8, hh]
  · intro hcase
    unfold api_ioctl
    rw [dif_pos h8]
    rcases hh : handles ⟨fd, h8⟩ with _ | _ | _ | f | _ | _
    · rfl
    · rfl
    · rfl
    · rfl
    · rfl
    · rcases hcase with hne | hge
      · exact absurd hh hne
      · obtain ⟨c, rfl⟩ : ∃ c, command = c + 3 := ⟨command - 3, by omega⟩
        rfl
  · intro fd' hge
    have hnot : ¬ fd' < 8 := by omega
    exact ⟨by simp [api_write, hnot], by simp [api_read, hnot],
      by simp [api_ioctl, hnot]⟩

/-- Witness for the amended C6 at a concrete all-`Closed` table. -/
theorem c6_handle_dispatch_amended_witness :
    api_write false false (fun _ => OpenHandle.Closed) 0 =
        Except.error ApiError.BadHandle ∧
      api_ioctl ⟨none, false, none⟩ (fun _ => OpenHandle.Closed) 0 5 0 =
        Except.error ApiError.InvalidArg :=
  ⟨(c6_handle_dispatch_amended false false false 0 (Except.ok 0) (Except.ok 0)
      ⟨none, false, none⟩ (fun _ => OpenHandle.Closed) 0 5 0 (by decide)).1
      (Or.inr rfl),
   (c6_handle_dispatch_amended false false false 0 (Except.ok 0) (Except.ok 0)
      ⟨none, false, none⟩ (fun _ => OpenHandle.Closed) 0 5 0 (by decide)).2.2.1
      (Or.inr (by decide))⟩

end NeotronOS

namespace NeotronOS

/-- After a successful `load_segment`, addresses outside the header's
memory span are unchanged (also when the header is skipped). -/
theorem load_segment_frame {bottom : Nat} {file : Nat → Nat} {mem mem' : Mem}
    {ph : ProgramHeader} (hseg : load_segment bottom file mem ph = some mem')
    (a : Nat) (ha : a < ph.p_vaddr ∨ ph.p_vaddr + ph.p_memsz ≤ a) :
    mem' a = mem a := by
  unfold load_segment at hseg
  split at hseg
  · split at hseg
    · obtain rfl := Option.some.inj hseg
      simp only
      rw [if_neg]
      omega
    · exact absurd hseg (by simp)
  · obtain rfl := Option.some.inj hseg
    rfl

/-- A successful `load_segment` on a loadable header realises the claimed
span: file bytes in the first `p_filesz` bytes and zero in the rest of the
`p_memsz` span. -/
theorem load_segment_spec {bottom : Nat} {file : Nat → Nat} {mem mem' : Mem}
    {ph : ProgramHeader}
    (hproc : bottom ≤ ph.p_vaddr ∧ ph.p_type = PT_LOAD)
    (hseg : load_segment bottom file mem ph = some mem') :
    (∀ i, i < ph.p_filesz → mem' (ph.p_vaddr + i) = file (ph.p_offset + i)) ∧
      (∀ i, ph.p_filesz ≤ i → i < ph.p_memsz → mem' (ph.p_vaddr + i) = 0) := by
  unfold load_segment at hseg
  rw [if_pos hproc] at hseg
  split at hseg
  · obtain rfl := Option.some.inj hseg
    constructor
    · intro i hi
      simp only
      rw [if_pos (by omega), if_pos (by omega)]
      congr 1
      omega
    · intro i hlo hhi
      simp only
      rw [if_pos (by omega), if_neg (by omega)]
  · exact absurd hseg (by simp)

/-- Folding `load_segment` over headers whose loadable members all avoid
the address `a` leaves the byte at `a` unchanged. -/
theorem load_segments_fold_frame {bottom : Nat} {file : Nat → Nat}
    (headers : List ProgramHeader) (mem mem' : Mem)
    (hfold : headers.foldlM (load_segment bottom file) mem = some mem')
    (a : Nat)
    (ha : ∀ ph ∈ headers, bottom ≤ ph.p_vaddr ∧ ph.p_type = PT_LOAD →
      a < ph.p_vaddr ∨ ph.p_vaddr + ph.p_memsz ≤ a) :
    mem' a = mem a := by
  induction headers generalizing mem with
  | nil => rw [show mem' = mem from (Option.some.inj hfold).symm]
  | cons ph rest ih =>
    rw [List.foldlM_cons] at hfold
    obtain ⟨mem1, hseg, hrest⟩ := Option.bind_eq_some.mp hfold
    have hrest' := ih mem1 hrest
      (fun ph' hm hp => ha ph' (List.mem_cons_of_mem _ hm) hp)
    by_cases hproc : bottom ≤ ph.p_vaddr ∧ ph.p_type = PT_LOAD
    · rw [hrest',
        load_segment_frame hseg a (ha ph (List.mem_cons_self ph rest) hproc)]
    · unfold load_segment at hseg
      rw [if_neg hproc] at hseg
      obtain rfl := Option.some.inj hseg
      exact hrest'

/-- C3 amended: for every header `load_program` processes (`PT_LOAD` and
virtual address at or above the arena bottom) whose span no later loadable
header overlaps, after `load_program` returns `Ok` the `p_memsz`-byte span
at `p_vaddr` holds exactly the file bytes `[p_offset, p_offset + p_filesz)`
followed by zeroes, and `last_entry` equals the binary's declared entry
point. (The original per-header guarantee without the disjointness proviso
is refuted by the overlap counterexample below.) -/
theorem c3_load_program_zero_fill (tpa : TransientProgramArea) (mem : Mem)
    (pre post : List ProgramHeader) (ph : ProgramHeader) (entry : Nat)
    (file : Nat → Nat) (tpa' : TransientProgramArea) (mem' : Mem)
    (hload : load_program tpa mem (pre ++ ph :: post) entry file =
      some (tpa', mem'))
    (hproc : tpa.memory_bottom ≤ ph.p_vaddr ∧ ph.p_type = PT_LOAD)
    (hdisj : ∀ ph' ∈ post,
      tpa.memory_bottom ≤ ph'.p_vaddr ∧ ph'.p_type = PT_LOAD →
      ph'.p_vaddr + ph'.p_memsz ≤ ph.p_vaddr ∨
        ph.p_vaddr + ph.p_memsz ≤ ph'.p_vaddr) :
    (∀ i, i < ph.p_filesz → mem' (ph.p_vaddr + i) = file (ph.p_offset + i)) ∧
      (∀ i, ph.p_filesz ≤ i → i < ph.p_memsz → mem' (ph.p_vaddr + i) = 0) ∧
      tpa'.last_entry = entry := by
  unfold load_program at hload
  obtain ⟨memf, hfold, heq⟩ := Option.map_eq_some'.mp hload
  injection heq with h1 h2
  subst h1
  subst h2
  rw [List.foldlM_append] at hfold
  obtain ⟨mem1, hpre, hrest⟩ := Option.bind_eq_some.mp hfold
  rw [List.foldlM_cons] at hrest
  obtain ⟨mem2, hseg, hpost⟩ := Option.bind_eq_some.mp hrest
  obtain ⟨hfile, hzero⟩ := load_segment_spec hproc hseg
  have hframe : ∀ i, i < ph.p_memsz → memf (ph.p_vaddr + i) =
      mem2 (ph.p_vaddr + i) := by
    intro i hi
    refine load_segments_fold_frame post mem2 memf hpost _ ?_
    intro ph' hm hp
    rcases hdisj ph' hm hp with hd | hd
    · omega
    · omega
  refine ⟨?_, ?_, rfl⟩
  · intro i hi
    have hmem : i < ph.p_memsz := by
      have hle : ph.p_filesz ≤ ph.p_memsz := by
        unfold load_segment at hseg
        rw [if_pos hproc] at hseg
        split at hseg
        · assumption
        · exact absurd hseg (by simp)
      omega
    rw [hframe i hmem, hfile i hi]
  · intro i hlo hhi
    rw [hframe i hhi, hzero i hlo hhi]

/-- Witness for C3: loading the concrete header `c3_header` (file size 2,
memory size 4) from `c3_file` puts file bytes 8 and 9 at addresses 0 and 1,
zero at addresses 2 and 3, and stages entry point 5. -/
theorem c3_load_program_zero_fill_witness :
    c3_loaded 1 = 19 ∧ c3_loaded 2 = 0 ∧
      (⟨0, 64, 5⟩ : TransientProgramArea).last_entry = 5 := by
  have h := c3_load_program_zero_fill ⟨0, 64, 0⟩ (fun _ => 7) [] []
    c3_header 5 c3_file ⟨0, 64, 5⟩ c3_loaded rfl (by decide)
    (fun ph' hm _ => absurd hm (List.not_mem_nil _))
  refine ⟨?_, ?_, h.2.2⟩
  · have h1 := h.1 1 (by decide)
    simpa [c3_header, c3_file] using h1
  · have h2 := h.2.1 2 (by decide) (by decide)
    simpa [c3_header] using h2

/-- C3 fails as stated: with two overlapping `PT_LOAD` headers — the first
zeroing the 8-byte span at 256 with no file bytes, the second loading 4
file bytes at 260 — `load_program` returns `Ok`, yet byte 4 of the first
header's span (address 260, inside its `[p_filesz, p_memsz)` zero region)
holds the second segment's file byte 10, not zero, because the segment
loop lets every later segment overwrite earlier spans. -/
theorem c3_load_program_overlap_counterexample :
    (load_program ⟨0, 64, 0⟩ (fun _ => 7)
        [⟨256, 1, 0, 0, 8⟩, ⟨260, 1, 0, 4, 4⟩] 5 c3_file).map
      (fun r => r.2 (256 + 4)) = some 10 ∧ (10 : Nat) ≠ 0 := by
  constructor
  · decide
  · decide

end NeotronOS

namespace NeotronOS

/-- The chunk loop on an empty output buffer returns it untouched. -/
theorem source_read_loop_nil (file : Nat → Nat) (fuel : Nat)
    (st : FileSourceState) (offset : Nat) :
    source_read_loop file fuel st offset [] = ([], st) := by
  cases fuel <;> rfl

/-- Inversion of a successful cache-hit test. -/
theorem cache_hit_some {st : FileSourceState} {offset k c : Nat}
    (h : cache_hit st offset k = some c) :
    st.offset_cached = some c ∧ c ≤ offset ∧ offset < c + BUFFER_LEN ∧
      c ≤ offset + k - 1 ∧ offset + k - 1 < c + BUFFER_LEN := by
  unfold cache_hit at h
  split at h
  · rename_i c' heq
    split at h
    · rename_i hcond
      obtain rfl := Option.some.inj h
      exact ⟨heq, hcond.1, hcond.2.1, hcond.2.2.1, hcond.2.2.2⟩
    · exact absurd h (by simp)
  · exact absurd h (by simp)

/-- C4 fails as stated: after a 1-byte read that fills the cache from
offset 0, a 129-byte read at offset 0 hits the cache for its first 128-byte
chunk and then returns, leaving the final byte of the output buffer holding
its previous contents (7) rather than the file byte at offset 128. -/
theorem c4_cached_read_counterexample :
    (source_read (fun i => (i + 1) % 251)
        ((source_read (fun i => (i + 1) % 251) FileSourceState.new 0
          [7]).2) 0 (List.replicate 129 7)).1 ≠
      uncached_read (fun i => (i + 1) % 251) 0 129 := by
  decide

/-- C4 amended: for reads that fit in one cache-sized chunk (length at most
128 bytes), a read through the cache delivers exactly the bytes an
uncached positioned read of the same range would, and leaves the cache
consistent with the file; longer reads are transparent only when the first
chunk misses the cache, because a first-chunk hit returns early with the
remaining bytes unfilled. -/
theorem c4_cached_read_single_chunk (file : Nat → Nat)
    (st : FileSourceState) (offset : Nat) (out_buffer : List Nat)
    (hvalid : cacheValid file st) (hlen : out_buffer.length ≤ BUFFER_LEN) :
    (source_read file st offset out_buffer).1 =
      uncached_read file offset out_buffer.length ∧
      cacheValid file (source_read file st offset out_buffer).2 := by
  unfold source_read
  rcases hbuf : out_buffer.length with _ | n
  · rw [List.length_eq_zero.mp hbuf]
    exact ⟨rfl, hvalid⟩
  · have hdrop : out_buffer.drop (n + 1) = [] := by
      rw [← hbuf]
      exact List.drop_length _
    simp only [source_read_loop]
    rw [hbuf, if_neg (Nat.succ_ne_zero n)]
    have hk : min BUFFER_LEN (n + 1) = n + 1 :=
      Nat.min_eq_right (hbuf ▸ hlen)
    rw [hk]
    rcases hhit : cache_hit st offset (n + 1) with _ | c
    · simp only [hhit]
      rw [hdrop, source_read_loop_nil]
      refine ⟨by simp [uncached_read], ?_⟩
      intro c hc i hi
      obtain rfl := Option.some.inj hc
      rfl
    · simp only [hhit]
      obtain ⟨hcached, hc1, hc2, hc3, hc4⟩ := cache_hit_some hhit
      rw [hdrop]
      refine ⟨?_, hvalid⟩
      rw [List.append_nil]
      unfold uncached_read
      rw [List.map_eq_map_iff]
      intro i hir
      have hi : i < n + 1 := List.mem_range.mp hir
      rw [hvalid c hcached (offset - c + i) (by omega)]
      congr 1
      omega

/-- Witness for the amended C4: a 3-byte cached read from a fresh source
delivers the uncached bytes. -/
theorem c4_cached_read_single_chunk_witness :
    (source_read (fun i => i) FileSourceState.new 5 [0, 0, 0]).1 =
      uncached_read (fun i => i) 5 3 :=
  (c4_cached_read_single_chunk (fun i => i) FileSourceState.new 5 [0, 0, 0]
    (by intro c hc i hi; simp [FileSourceState.new] at hc) (by decide)).1

end NeotronOS

namespace NeotronOS

namespace ConsoleInner

/-- A successful `write_at` only rewrites the buffer. -/
theorem write_at_shape {st st' : ConsoleInner} {r c : Int} {g : Nat}
    {ic : Bool} (h : write_at st r c g ic = some st') :
    ∃ b, st' = { st with buffer := b } := by
  unfold write_at at h
  split at h
  · exact ⟨_, (Option.some.inj h).symm⟩
  · exact absurd h (by simp)

/-- A successful `write` only rewrites the buffer. -/
theorem write_shape {st st' : ConsoleInner} {g : Nat}
    (h : write st g = some st') : ∃ b, st' = { st with buffer := b } := by
  unfold write at h
  exact write_at_shape h

/-- A successful `write_cells` only rewrites the buffer. -/
theorem write_cells_shape {g : Nat} {cells : List (Int × Int)} :
    ∀ {st st' : ConsoleInner}, write_cells st cells g = some st' →
      ∃ b, st' = { st with buffer := b } := by
  induction cells with
  | nil =>
    intro st st' h
    exact ⟨st.buffer, (Option.some.inj h).symm⟩
  | cons rc rest ih =>
    intro st st' h
    unfold write_cells at h
    rw [List.foldlM_cons] at h
    obtain ⟨st1, h1, h2⟩ := Option.bind_eq_some.mp h
    obtain ⟨b1, rfl⟩ := write_at_shape h1
    obtain ⟨b2, rfl⟩ := ih h2
    exact ⟨b2, rfl⟩

/-- A successful `scroll_page` only rewrites the buffer. -/
theorem scroll_page_shape {st st' : ConsoleInner}
    (h : scroll_page st = some st') :
    ∃ b, st' = { st with buffer := b } := by
  unfold scroll_page at h
  split at h
  · exact absurd h (by simp)
  · obtain ⟨b, rfl⟩ := write_cells_shape h
    exact ⟨b, rfl⟩

/-- A successful `scroll_row_check` only rewrites the buffer and row. -/
theorem scroll_row_check_shape {st st' : ConsoleInner}
    (h : scroll_row_check st = some st') :
    ∃ b r, st' = { st with buffer := b, row := r } := by
  unfold scroll_row_check at h
  split at h
  · obtain ⟨b, rfl⟩ := scroll_page_shape h
    exact ⟨b, st.row - 1, rfl⟩
  · exact ⟨st.buffer, st.row, (Option.some.inj h).symm⟩

/-- A successful `scroll_as_required` only rewrites buffer, row and
column. -/
theorem scroll_as_required_shape {st st' : ConsoleInner}
    (h : scroll_as_required st = some st') :
    ∃ b r c, st' = { st with buffer := b, row := r, col := c } := by
  unfold scroll_as_required at h
  split at h
  · split at h
    · obtain ⟨b, r, rfl⟩ := scroll_row_check_shape h
      exact ⟨b, r, 0, rfl⟩
    · obtain ⟨b, r, rfl⟩ := scroll_row_check_shape h
      exact ⟨b, r, st.col, rfl⟩
  · exact absurd h (by simp)

/-- `print` preserves the cursor-overlay bookkeeping. -/
theorem print_overlay {st st' : ConsoleInner} {ch : Nat}
    (h : print st ch = some st') :
    st'.cursor_holder = st.cursor_holder ∧
      st'.cursor_depth = st.cursor_depth := by
  unfold print at h
  obtain ⟨st1, h1, h2⟩ := Option.bind_eq_some.mp h
  obtain ⟨b, r, c, rfl⟩ := scroll_as_required_shape h1
  obtain ⟨st2, h2a, h2b⟩ := Option.map_eq_some'.mp h2
  obtain ⟨b2, rfl⟩ := write_shape h2a
  subst h2b
  exact ⟨rfl, rfl⟩

/-- `execute` (the C0 handler) preserves the cursor-overlay bookkeeping. -/
theorem execute_overlay {st st' : ConsoleInner} {byte : Nat}
    (h : execute st byte = some st') :
    st'.cursor_holder = st.cursor_holder ∧
      st'.cursor_depth = st.cursor_depth := by
  unfold execute at h
  obtain ⟨st1, h1, h2⟩ := Option.map_eq_some'.mp h
  obtain ⟨b, r, c, rfl⟩ := scroll_as_required_shape h1
  subst h2
  split_ifs <;> exact ⟨rfl, rfl⟩

/-- `sgr_param` only changes attribute state. -/
theorem sgr_param_overlay (st : ConsoleInner) (p : Nat) :
    (sgr_param st p).cursor_holder = st.cursor_holder ∧
      (sgr_param st p).cursor_depth = st.cursor_depth := by
  unfold sgr_param
  constructor
  · simp only [apply_ite (cursor_holder)]
    simp
  · simp only [apply_ite (cursor_depth)]
    simp

/-- Folding `sgr_param` only changes attribute state. -/
theorem sgr_fold_overlay (params : List Nat) :
    ∀ st : ConsoleInner,
      (params.foldl sgr_param st).cursor_holder = st.cursor_holder ∧
        (params.foldl sgr_param st).cursor_depth = st.cursor_depth := by
  induction params with
  | nil => intro st; exact ⟨rfl, rfl⟩
  | cons p ps ih =>
    intro st
    rw [List.foldl_cons]
    obtain ⟨h1, h2⟩ := ih (sgr_param st p)
    obtain ⟨g1, g2⟩ := sgr_param_overlay st p
    exact ⟨h1.trans g1, h2.trans g2⟩

/-- `promote_bright` only changes attribute state. -/
theorem promote_bright_overlay (st : ConsoleInner) :
    (promote_bright st).cursor_holder = st.cursor_holder ∧
      (promote_bright st).cursor_depth = st.cursor_depth := by
  unfold promote_bright
  constructor
  · simp only [apply_ite (cursor_holder)]
    simp
  · simp only [apply_ite (cursor_depth)]
    simp

/-- The whole SGR arm only changes attribute state. -/
theorem sgr_overlay (params : List Nat) (st : ConsoleInner) :
    (sgr st params).cursor_holder = st.cursor_holder ∧
      (sgr st params).cursor_depth = st.cursor_depth := by
  unfold sgr
  obtain ⟨h1, h2⟩ := promote_bright_overlay (params.foldl sgr_param st)
  obtain ⟨g1, g2⟩ := sgr_fold_overlay params st
  exact ⟨h1.trans g1, h2.trans g2⟩

/-- `csi_dispatch` preserves the cursor-overlay bookkeeping. -/
theorem csi_dispatch_overlay {st st' : ConsoleInner}
    {params inters : List Nat} {action : Nat}
    (h : csi_dispatch st params inters action = some st') :
    st'.cursor_holder = st.cursor_holder ∧
      st'.cursor_depth = st.cursor_depth := by
  unfold csi_dispatch at h
  by_cases ha0 : action = 109
  · rw [if_pos ha0] at h
    obtain rfl := Option.some.inj h
    exact sgr_overlay params st
  rw [if_neg ha0] at h
  by_cases ha1 : action = 65
  · rw [if_pos ha1] at h
    obtain rfl := Option.some.inj h
    exact ⟨rfl, rfl⟩
  rw [if_neg ha1] at h
  by_cases ha2 : action = 66
  · rw [if_pos ha2] at h
    obtain rfl := Option.some.inj h
    exact ⟨rfl, rfl⟩
  rw [if_neg ha2] at h
  by_cases ha3 : action = 67
  · rw [if_pos ha3] at h
    obtain rfl := Option.some.inj h
    exact ⟨rfl, rfl⟩
  rw [if_neg ha3] at h
  by_cases ha4 : action = 68
  · rw [if_pos ha4] at h
    obtain rfl := Option.some.inj h
    exact ⟨rfl, rfl⟩
  rw [if_neg ha4] at h
  by_cases ha5 : action = 69
  · rw [if_pos ha5] at h
    obtain rfl := Option.some.inj h
    exact ⟨rfl, rfl⟩
  rw [if_neg ha5] at h
  by_cases ha6 : action = 70
  · rw [if_pos ha6] at h
    obtain rfl := Option.some.inj h
    exact ⟨rfl, rfl⟩
  rw [if_neg ha6] at h
  by_cases ha7 : action = 71
  · rw [if_pos ha7] at h
    obtain rfl := Option.some.inj h
    exact ⟨rfl, rfl⟩
  rw [if_neg ha7] at h
  by_cases ha8 : action = 72 ∨ action = 102
  · rw [if_pos ha8] at h
    obtain rfl := Option.some.inj h
    exact ⟨rfl, rfl⟩
  rw [if_neg ha8] at h
  by_cases ha9 : action = 74
  · rw [if_pos ha9] at h
    by_cases hp0 : param_or_one params 0 = 0
    · rw [if_pos hp0] at h
      obtain ⟨b, rfl⟩ := write_cells_shape h
      exact ⟨rfl, rfl⟩
    rw [if_neg hp0] at h
    by_cases hp1 : param_or_one params 0 = 1
    · rw [if_pos hp1] at h
      obtain ⟨b, rfl⟩ := write_cells_shape h
      exact ⟨rfl, rfl⟩
    rw [if_neg hp1] at h
    by_cases hp2 : param_or_one params 0 = 2
    · rw [if_pos hp2] at h
      obtain ⟨b, rfl⟩ := write_cells_shape h
      exact ⟨rfl, rfl⟩
    rw [if_neg hp2] at h
    obtain rfl := Option.some.inj h
    exact ⟨rfl, rfl⟩
  rw [if_neg ha9] at h
  by_cases ha10 : action = 75
  · rw [if_pos ha10] at h
    by_cases hp0 : param_or_one params 0 = 0
    · rw [if_pos hp0] at h
      obtain ⟨b, rfl⟩ := write_cells_shape h
      exact ⟨rfl, rfl⟩
    rw [if_neg hp0] at h
    by_cases hp1 : param_or_one params 0 = 1
    · rw [if_pos hp1] at h
      obtain ⟨b, rfl⟩ := write_cells_shape h
      exact ⟨rfl, rfl⟩
    rw [if_neg hp1] at h
    by_cases hp2 : param_or_one params 0 = 2
    · rw [if_pos hp2] at h
      obtain ⟨b, rfl⟩ := write_cells_shape h
      exact ⟨rfl, rfl⟩
    rw [if_neg hp2] at h
    obtain rfl := Option.some.inj h
    exact ⟨rfl, rfl⟩
  rw [if_neg ha10] at h
  by_cases ha11 : action = 104
  · rw [if_pos ha11] at h
    by_cases hq : inters.head? = some 63
    · rw [if_pos hq] at h
      obtain rfl := Option.some.inj h
      exact ⟨rfl, rfl⟩
    rw [if_neg hq] at h
    obtain rfl := Option.some.inj h
    exact ⟨rfl, rfl⟩
  rw [if_neg ha11] at h
  by_cases ha12 : action = 108
  · rw [if_pos ha12] at h
    by_cases hq : inters.head? = some 63
    · rw [if_pos hq] at h
      obtain rfl := Option.some.inj h
      exact ⟨rfl, rfl⟩
    rw [if_neg hq] at h
    obtain rfl := Option.some.inj h
    exact ⟨rfl, rfl⟩
  rw [if_neg ha12] at h
  obtain rfl := Option.some.inj h
  exact ⟨rfl, rfl⟩

end ConsoleInner

/-- One parser step preserves the cursor-overlay bookkeeping: no performer
action touches the saved glyph or the depth counter. -/
theorem advance_overlay {vc vc' : VgaConsole} {b : Nat}
    (h : advance vc b = some vc') :
    vc'.inner.cursor_holder = vc.inner.cursor_holder ∧
      vc'.inner.cursor_depth = vc.inner.cursor_depth := by
  unfold advance at h
  repeat' split at h
  all_goals
    first
      | (obtain rfl := Option.some.inj h
         exact ⟨rfl, rfl⟩)
      | (obtain ⟨i, hi, heq⟩ := Option.map_eq_some'.mp h
         subst heq
         first
           | exact ConsoleInner.execute_overlay hi
           | exact ConsoleInner.print_overlay hi
           | exact ConsoleInner.csi_dispatch_overlay hi)

/-- Feeding any byte string through the parser preserves the
cursor-overlay bookkeeping. -/
theorem foldlM_advance_overlay {bs : List Nat} :
    ∀ {vc vc' : VgaConsole}, bs.foldlM advance vc = some vc' →
      vc'.inner.cursor_holder = vc.inner.cursor_holder ∧
        vc'.inner.cursor_depth = vc.inner.cursor_depth := by
  induction bs with
  | nil =>
    intro vc vc' h
    obtain rfl := Option.some.inj h
    exact ⟨rfl, rfl⟩
  | cons b rest ih =>
    intro vc vc' h
    rw [List.foldlM_cons] at h
    obtain ⟨vc1, h1, h2⟩ := Option.bind_eq_some.mp h
    obtain ⟨p1, q1⟩ := advance_overlay h1
    obtain ⟨p2, q2⟩ := ih h2
    exact ⟨p2.trans p1, q2.trans q1⟩

end NeotronOS

namespace NeotronOS

namespace ConsoleInner

/-- `write_at` succeeds whenever its asserted conditions hold, rewriting
only the buffer. -/
theorem write_at_isSome {st : ConsoleInner} {r c : Int} {g : Nat}
    {ic : Bool} (h1 : r < st.height) (h2 : c < st.width)
    (h3 : ic = true ∨ st.cursor_holder = none) :
    ∃ b, write_at st r c g ic = some { st with buffer := b } := by
  unfold write_at
  rw [if_pos ⟨h1, h2, h3⟩]
  exact ⟨_, rfl⟩

/-- `cursor_disable` always succeeds: it restores the saved glyph when the
cursor is on-screen, clears the saved glyph, bumps the depth counter, and
touches nothing else except the buffer. -/
theorem cursor_disable_total (st : ConsoleInner) :
    ∃ st1, cursor_disable st = some st1 ∧
      st1.cursor_holder = none ∧
      st1.cursor_depth = st.cursor_depth + 1 ∧
      st1.cursor_wanted = st.cursor_wanted ∧ st1.attr = st.attr ∧
      st1.bright = st.bright ∧ st1.reverse = st.reverse ∧
      st1.width = st.width ∧ st1.height = st.height ∧
      st1.row = st.row ∧ st1.col = st.col := by
  unfold cursor_disable
  rcases hh : st.cursor_holder with _ | glyph
  · simp only [hh]
    exact ⟨_, rfl, hh, rfl, rfl, rfl, rfl, rfl, rfl, rfl, rfl, rfl⟩
  · simp only [hh]
    by_cases hs : 0 ≤ st.row ∧ st.row < st.height ∧ 0 ≤ st.col ∧
        st.col < st.width
    · rw [if_pos hs]
      obtain ⟨b, hw⟩ := @write_at_isSome { st with cursor_holder := none }
        st.row st.col glyph false
        hs.2.1 hs.2.2.2 (Or.inr rfl)
      unfold write
      rw [hw]
      exact ⟨_, rfl, rfl, rfl, rfl, rfl, rfl, rfl, rfl, rfl, rfl, rfl⟩
    · rw [if_neg hs]
      exact ⟨_, rfl, rfl, rfl, rfl, rfl, rfl, rfl, rfl, rfl, rfl, rfl⟩

/-- `cursor_enable_body` run at depth zero with nothing saved: a glyph is
saved exactly when the cursor is wanted, an on-screen cursor means the
underscore really sits in the buffer at the cursor cell, and an off-screen
cursor saves the made-up space without drawing. -/
theorem cursor_enable_body_spec (st : ConsoleInner)
    (hd : st.cursor_depth = 0) (hh : st.cursor_holder = none) :
    ∃ st2, cursor_enable_body st = some st2 ∧ st2.cursor_depth = 0 ∧
      st2.cursor_wanted = st.cursor_wanted ∧
      (st2.cursor_holder.isSome ↔ st2.cursor_wanted = true) ∧
      ∀ g, st2.cursor_holder = some g →
        (onScreen st2 → glyphUnderCursor st2 = 95) ∧
        (¬ onScreen st2 → g = 32) := by
  unfold cursor_enable_body
  by_cases hw : st.cursor_wanted = true
  · rw [if_pos ⟨hd, hw, hh⟩]
    by_cases hs : 0 ≤ st.row ∧ st.row < st.height ∧ 0 ≤ st.col ∧
        st.col < st.width
    · rw [if_pos hs]
      have hread : st.read =
          some (st.buffer ((st.row * st.width + st.col) * 2)) := by
        unfold read read_at
        rw [if_pos ⟨hs.2.1, hs.2.2.2, hh⟩]
      rw [hread]
      have hwr : write_at st st.row st.col 95 true =
          some { st with buffer := fun o =>
            if o = (st.row * st.width + st.col) * 2 then 95
            else if o = (st.row * st.width + st.col) * 2 + 1 then
              st.write_attr.as_u8
            else st.buffer o } := by
        unfold write_at
        rw [if_pos ⟨hs.2.1, hs.2.2.2, Or.inl rfl⟩]
      rw [hwr]
      refine ⟨_, rfl, hd, rfl, by simp [hw], ?_⟩
      intro g hg
      constructor
      · intro _
        unfold glyphUnderCursor
        simp
      · intro hos
        exact absurd (by simpa [onScreen] using hs) hos
    · rw [if_neg hs]
      refine ⟨_, rfl, hd, rfl, by simp [hw], ?_⟩
      intro g hg
      constructor
      · intro hos
        exact absurd (by simpa [onScreen] using hos) hs
      · intro _
        simpa using hg.symm
  · rw [if_neg (by simp [hw])]
    refine ⟨_, rfl, hd, rfl, ?_, ?_⟩
    · simp [hh]
      simpa using hw
    · intro g hg
      rw [hh] at hg
      exact absurd hg (by simp)

/-- From a one-deep bracket with nothing saved, `cursor_enable` succeeds
and re-establishes the overlay facts. -/
theorem cursor_enable_spec (st : ConsoleInner) (hd : st.cursor_depth = 1)
    (hh : st.cursor_holder = none) :
    ∃ st2, cursor_enable st = some st2 ∧ st2.cursor_depth = 0 ∧
      st2.cursor_wanted = st.cursor_wanted ∧
      (st2.cursor_holder.isSome ↔ st2.cursor_wanted = true) ∧
      ∀ g, st2.cursor_holder = some g →
        (onScreen st2 → glyphUnderCursor st2 = 95) ∧
        (¬ onScreen st2 → g = 32) := by
  unfold cursor_enable
  rw [if_neg (by omega)]
  obtain ⟨st2, h1, h2, h3, h4, h5⟩ := cursor_enable_body_spec
    { st with cursor_depth := st.cursor_depth - 1 } (by simp [hd]) hh
  exact ⟨st2, h1, h2, h3, h4, h5⟩

end ConsoleInner

end NeotronOS

namespace NeotronOS

/-- `ConsoleInner::clear` preserves the overlay bookkeeping (it only
rewrites the buffer and the cursor position). -/
theorem clear_overlay {st st' : ConsoleInner}
    (h : ConsoleInner.clear st = some st') :
    st'.cursor_holder = st.cursor_holder ∧
      st'.cursor_depth = st.cursor_depth := by
  unfold ConsoleInner.clear at h
  obtain ⟨stm, hwc, heq⟩ := Option.map_eq_some'.mp h
  obtain ⟨b, rfl⟩ := ConsoleInner.write_cells_shape hwc
  subst heq
  exact ⟨rfl, rfl⟩

/-- From any state with the overlay bracket closed, a successful
`VgaConsole::clear` yields a state satisfying the cursor-overlay
invariant. -/
theorem console_clear_invariant {vc vc' : VgaConsole}
    (hdep : vc.inner.cursor_depth = 0) (h : console_clear vc = some vc') :
    CursorInvariant vc' := by
  unfold console_clear at h
  obtain ⟨i1, hd, hh1, hd1, _⟩ := ConsoleInner.cursor_disable_total vc.inner
  rw [hd] at h
  simp only [Option.some_bind] at h
  obtain ⟨icl, hcl, hen⟩ := Option.bind_eq_some.mp h
  obtain ⟨hch, hcd⟩ := clear_overlay hcl
  obtain ⟨st2, hen2, he1, he2, he3, he4⟩ :=
    ConsoleInner.cursor_enable_spec icl
      (by rw [hcd, hd1, hdep]) (by rw [hch]; exact hh1)
  rw [hen2] at hen
  obtain ⟨i2, hi2, heq⟩ := Option.map_eq_some'.mp hen
  obtain rfl := Option.some.inj hi2
  subst heq
  exact ⟨he1, he3, he4⟩

/-- A public console operation run from an invariant-satisfying state
re-establishes the cursor-overlay invariant. -/
theorem runOp_invariant {vc vc' : VgaConsole} {op : ConsoleOp}
    (hinv : CursorInvariant vc) (h : runOp vc op = some vc') :
    CursorInvariant vc' := by
  obtain ⟨hdep, hiff, hglyph⟩ := hinv
  cases op with
  | write_bstr bs =>
    simp only [runOp] at h
    unfold write_bstr at h
    obtain ⟨i1, hd, hh1, hd1, _⟩ :=
      ConsoleInner.cursor_disable_total vc.inner
    rw [hd] at h
    simp only [Option.some_bind] at h
    obtain ⟨vc2, hfold, hen⟩ := Option.bind_eq_some.mp h
    obtain ⟨hph, hpd⟩ := foldlM_advance_overlay hfold
    obtain ⟨st2, hen2, he1, he2, he3, he4⟩ :=
      ConsoleInner.cursor_enable_spec vc2.inner
        (by rw [hpd]; simp [hd1, hdep]) (by rw [hph]; exact hh1)
    rw [hen2] at hen
    obtain ⟨i2, hi2, heq⟩ := Option.map_eq_some'.mp hen
    obtain rfl := Option.some.inj hi2
    subst heq
    exact ⟨he1, he3, he4⟩
  | write_str ds =>
    simp only [runOp] at h
    unfold write_str at h
    obtain ⟨i1, hd, hh1, hd1, _⟩ :=
      ConsoleInner.cursor_disable_total vc.inner
    rw [hd] at h
    simp only [Option.some_bind] at h
    rw [if_pos hh1] at h
    obtain ⟨vc2, hfold, hen⟩ := Option.bind_eq_some.mp h
    obtain ⟨hph, hpd⟩ := foldlM_advance_overlay hfold
    obtain ⟨st2, hen2, he1, he2, he3, he4⟩ :=
      ConsoleInner.cursor_enable_spec vc2.inner
        (by rw [hpd]; simp [hd1, hdep]) (by rw [hph]; exact hh1)
    rw [hen2] at hen
    obtain ⟨i2, hi2, heq⟩ := Option.map_eq_some'.mp hen
    obtain rfl := Option.some.inj hi2
    subst heq
    exact ⟨he1, he3, he4⟩
  | clear =>
    simp only [runOp] at h
    exact console_clear_invariant hdep h
  | change_mode g =>
    cases g with
    | none =>
      simp only [runOp, change_mode] at h
      obtain rfl := Option.some.inj h
      exact ⟨hdep, hiff, hglyph⟩
    | some hw =>
      simp only [runOp, change_mode] at h
      refine console_clear_invariant ?_ h
      simpa using hdep

/-- Running any sequence of public console operations from an
invariant-satisfying console keeps the cursor-overlay invariant. -/
theorem runOps_invariant {ops : List ConsoleOp} :
    ∀ {vc vc' : VgaConsole}, CursorInvariant vc →
      runOps vc ops = some vc' → CursorInvariant vc' := by
  induction ops with
  | nil =>
    intro vc vc' hinv h
    obtain rfl := Option.some.inj h
    exact hinv
  | cons op rest ih =>
    intro vc vc' hinv h
    unfold runOps at h
    rw [List.foldlM_cons] at h
    obtain ⟨vc1, h1, h2⟩ := Option.bind_eq_some.mp h
    exact ih (runOp_invariant hinv h1) h2

end NeotronOS

namespace NeotronOS

/-- C7 fails as stated: on a fresh 12-by-7 console, turn the cursor on
(`ESC [ ? 2 5 h`), then write exactly twelve characters. Afterwards the
overlay bracket is closed, `cursor_holder` is `Some(' ')` (32), the cursor
position `(0, 12)` is logically off-screen (`col` equals the width), and
no cell of the buffer holds the cursor glyph `'_'` (95) — so the saved
glyph is `Some` without a cursor glyph having been drawn, refuting the
claimed equivalence in exactly the off-screen case it includes. -/
theorem c7_cursor_overlay_counterexample :
    (runOps (VgaConsole.new (fun _ => 0) 12 7)
        [ConsoleOp.write_bstr [27, 91, 63, 50, 53, 104],
         ConsoleOp.write_bstr
           [97, 97, 97, 97, 97, 97, 97, 97, 97, 97, 97, 97]]).map
      (fun v => (v.inner.cursor_holder, v.inner.cursor_depth, v.inner.row,
        v.inner.col,
        (List.range 84).filter fun i => v.inner.buffer (2 * (i : Int)) = 95)) =
      some (some 32, 0, 0, 12, []) := by
  decide

/-- C7 amended: after any sequence of public console operations from a
fresh console, outside the cursor bracket the saved glyph is `Some` exactly
when the cursor is wanted; when the cursor position is on-screen a saved
glyph really means the underscore has been drawn into the buffer at the
cursor cell, while an off-screen cursor position (pending lazy scroll)
leaves the buffer undrawn and saves the made-up space 32. -/
theorem c7_cursor_overlay_amended (init : Int → Nat) (width height : Int)
    (ops : List ConsoleOp) (vc' : VgaConsole)
    (h : runOps (VgaConsole.new init width height) ops = some vc') :
    CursorInvariant vc' := by
  refine runOps_invariant ?_ h
  refine ⟨rfl, by simp [VgaConsole.new], ?_⟩
  intro g hg
  simp [VgaConsole.new] at hg

/-- Witness for the amended C7 at the empty operation sequence on a
concrete fresh console. -/
theorem c7_cursor_overlay_amended_witness :
    CursorInvariant (VgaConsole.new (fun _ => 0) 12 7) :=
  c7_cursor_overlay_amended (fun _ => 0) 12 7 []
    (VgaConsole.new (fun _ => 0) 12 7) rfl

end NeotronOS

namespace NeotronOS

namespace ConsoleInner

/-- Replacing only the buffer leaves the effective write attribute
unchanged. -/
theorem write_attr_set_buffer (st : ConsoleInner) (b : Int → Nat) :
    ({ st with buffer := b } : ConsoleInner).write_attr = st.write_attr := rfl

/-- Membership in the `0..n` row/column range. -/
theorem mem_intRange {x : Int} {n : Int} :
    x ∈ intRange n ↔ 0 ≤ x ∧ x < n := by
  simp only [intRange, bind_pure_comp, List.map_id, List.mem_map,
    List.map_eq_map, List.mem_range]
  constructor
  · rintro ⟨i, ⟨a, ha, rfl⟩, rfl⟩
    omega
  · rintro ⟨hx, hxn⟩
    exact ⟨x, ⟨x.toNat, by omega, by omega⟩, rfl⟩

/-- Membership in the row-major cell list. -/
theorem mem_cellList {rc : Int × Int} {rows cols : List Int} :
    rc ∈ cellList rows cols ↔ rc.1 ∈ rows ∧ rc.2 ∈ cols := by
  obtain ⟨r, c⟩ := rc
  simp only [cellList, List.mem_flatMap, List.mem_map, Prod.mk.injEq]
  constructor
  · rintro ⟨r', hr', c', hc', rfl, rfl⟩
    exact ⟨hr', hc'⟩
  · rintro ⟨hr, hc⟩; exact ⟨r, hr, c, hc, rfl, rfl⟩

/-- Closed form of `write_cells` over in-bounds cells with the cursor
holder empty: every listed cell's glyph byte holds the written glyph, every
listed cell's attribute byte holds the current write attribute, everything
else is untouched. -/
theorem write_cells_formula (cells : List (Int × Int)) :
    ∀ (st : ConsoleInner), st.cursor_holder = none →
    (∀ rc ∈ cells, rc.1 < st.height ∧ rc.2 < st.width) →
    ∀ (g : Nat),
    write_cells st cells g = some { st with buffer := (fun o =>
      if ∃ rc ∈ cells, o = (rc.1 * st.width + rc.2) * 2 then g
      else if ∃ rc ∈ cells, o = (rc.1 * st.width + rc.2) * 2 + 1 then
        st.write_attr.as_u8
      else st.buffer o) } := by
  induction cells with
  | nil =>
    intro st hhold hin g
    simp only [write_cells, List.foldlM_nil, List.not_mem_nil, false_and,
      exists_false, exists_prop, if_false]
    rfl
  | cons rc rest ih =>
    intro st hhold hin g
    have hb := hin rc (List.mem_cons_self rc rest)
    rw [write_cells, List.foldlM_cons]
    rw [write_at, if_pos ⟨hb.1, hb.2, Or.inr hhold⟩]
    simp only [Option.some_bind]
    have ihres := ih { st with buffer := (fun o =>
        if o = (rc.1 * st.width + rc.2) * 2 then g
        else if o = (rc.1 * st.width + rc.2) * 2 + 1 then st.write_attr.as_u8
        else st.buffer o) } hhold
      (fun rc' h => hin rc' (List.mem_cons_of_mem rc h)) g
    rw [write_cells] at ihres
    dsimp only at ihres
    refine ihres.trans ?_
    refine congrArg some ?_
    ext o
    · dsimp only
      simp only [write_attr_set_buffer]
      simp only [List.mem_cons, or_and_right, exists_or, exists_eq_left]
      by_cases h1 : ∃ x ∈ rest, o = (x.1 * st.width + x.2) * 2
      · rw [if_pos h1, if_pos (Or.inr h1)]
      · by_cases h2 : o = (rc.1 * st.width + rc.2) * 2
        · have h3 : ¬ ∃ x ∈ rest, o = (x.1 * st.width + x.2) * 2 + 1 := by
            rintro ⟨x, hx, he⟩; omega
          rw [if_neg h1, if_neg h3, if_pos h2, if_pos (Or.inl h2)]
        · by_cases h4 : ∃ x ∈ rest, o = (x.1 * st.width + x.2) * 2 + 1
          · rw [if_neg h1, if_pos h4, if_neg (fun hor => hor.elim h2 h1),
              if_pos (Or.inr h4)]
          · by_cases h5 : o = (rc.1 * st.width + rc.2) * 2 + 1
            · rw [if_neg h1, if_neg h4, if_neg h2, if_pos h5,
                if_neg (fun hor => hor.elim h2 h1), if_pos (Or.inl h5)]
            · rw [if_neg h1, if_neg h4, if_neg h2, if_neg h5,
                if_neg (fun hor => hor.elim h2 h1),
                if_neg (fun hor => hor.elim h5 h4)]
    all_goals rfl

/-- With positive dimensions, `home` just zeroes the cursor position. -/
theorem home_spec (st : ConsoleInner) (hh : 0 < st.height)
    (hw : 0 < st.width) :
    st.home = { st with row := 0, col := 0 } := by
  unfold home move_cursor_absolute move_cursor_relative
  norm_num
  omega

/-- Closed form of `ConsoleInner::clear` from a state with no saved cursor
glyph and positive dimensions: every cell blanked with the current write
attribute, cursor homed, everything else untouched. -/
theorem clear_formula (st : ConsoleInner) (hhold : st.cursor_holder = none)
    (hh : 0 < st.height) (hw : 0 < st.width) :
    st.clear = some { st with
      buffer := (fun o =>
        if ∃ rc ∈ cellList (intRange st.height) (intRange st.width),
            o = (rc.1 * st.width + rc.2) * 2 then 32
        else if ∃ rc ∈ cellList (intRange st.height) (intRange st.width),
            o = (rc.1 * st.width + rc.2) * 2 + 1 then st.write_attr.as_u8
        else st.buffer o)
      row := 0
      col := 0 } := by
  have hin : ∀ rc ∈ cellList (intRange st.height) (intRange st.width),
      rc.1 < st.height ∧ rc.2 < st.width := by
    intro rc hm
    rw [mem_cellList] at hm
    exact ⟨(mem_intRange.mp hm.1).2, (mem_intRange.mp hm.2).2⟩
  have hwc := write_cells_formula _ st hhold hin 32
  unfold clear
  rw [hwc, Option.map_some']
  refine congrArg some ?_
  refine (home_spec _ ?_ ?_).trans ?_
  · exact hh
  · exact hw
  · rfl

end ConsoleInner

/-- C8 fails as stated: from a fresh 2-by-2 console, set a blue background
(`ESC [ 4 4 m`) and then clear through the public `VgaConsole::clear`.
The attribute byte of cell (0, 0) afterwards is 0x17 (blue background,
light-gray foreground) — the attribute currently in force — and not the
default attribute byte 0x07, refuting the "default attribute" half of the
claim. -/
theorem c8_clear_counterexample :
    (runOps (VgaConsole.new (fun _ => 0) 2 2)
        [ConsoleOp.write_bstr [27, 91, 52, 52, 109], ConsoleOp.clear]).map
      (fun v => v.inner.buffer 1) = some 23 ∧
    (23 : Nat) ≠ ConsoleInner.DEFAULT_ATTR.as_u8 := by
  constructor
  · decide
  · decide

/-- C8 amended: from any console state with no saved cursor glyph and
positive dimensions, `clear` succeeds, homes the cursor to (0, 0), and
blanks every one of the `width * height` cells to the space glyph 0x20
paired with the attribute **currently in force** (after reverse-video
resolution) — not the default attribute; and clearing again immediately
returns exactly the same state, so a second `clear` leaves the buffer
byte-for-byte identical. -/
theorem c8_clear_amended (st : ConsoleInner)
    (hhold : st.cursor_holder = none) (hh : 0 < st.height)
    (hw : 0 < st.width) :
    ∃ st1, st.clear = some st1 ∧ st1.row = 0 ∧ st1.col = 0 ∧
      (∀ r c : Int, 0 ≤ r → r < st.height → 0 ≤ c → c < st.width →
        st1.buffer ((r * st.width + c) * 2) = 32 ∧
        st1.buffer ((r * st.width + c) * 2 + 1) = st.write_attr.as_u8) ∧
      st1.clear = some st1 := by
  refine ⟨_, ConsoleInner.clear_formula st hhold hh hw, rfl, rfl, ?_, ?_⟩
  · intro r c hr hrh hc hcw
    have hmem : ((r, c) : Int × Int) ∈ ConsoleInner.cellList
        (ConsoleInner.intRange st.height) (ConsoleInner.intRange st.width) :=
      ConsoleInner.mem_cellList.mpr ⟨ConsoleInner.mem_intRange.mpr ⟨hr, hrh⟩,
        ConsoleInner.mem_intRange.mpr ⟨hc, hcw⟩⟩
    constructor
    · dsimp only
      rw [if_pos ⟨(r, c), hmem, rfl⟩]
    · dsimp only
      rw [if_neg ?_, if_pos ⟨(r, c), hmem, rfl⟩]
      rintro ⟨x, hx, he⟩
      omega
  · refine (ConsoleInner.clear_formula _ ?_ ?_ ?_).trans ?_
    · exact hhold
    · exact hh
    · exact hw
    refine congrArg some ?_
    ext o
    · dsimp only
      by_cases hg : ∃ rc ∈ ConsoleInner.cellList
          (ConsoleInner.intRange st.height) (ConsoleInner.intRange st.width),
          o = (rc.1 * st.width + rc.2) * 2
      · rw [if_pos hg, if_pos hg]
      · by_cases ha : ∃ rc ∈ ConsoleInner.cellList
            (ConsoleInner.intRange st.height) (ConsoleInner.intRange st.width),
            o = (rc.1 * st.width + rc.2) * 2 + 1
        · rw [if_neg hg, if_neg hg, if_pos ha, if_pos ha]
          rfl
        · rw [if_neg hg, if_neg hg, if_neg ha, if_neg ha]
    all_goals rfl

/-- Witness for the amended C8 on the concrete 2-by-2 console with a blue
background in force and the cursor parked at (1, 1). -/
theorem c8_clear_amended_witness :
    ∃ st1, c8_console.clear = some st1 ∧ st1.row = 0 ∧ st1.col = 0 ∧
      (∀ r c : Int, 0 ≤ r → r < c8_console.height → 0 ≤ c →
        c < c8_console.width →
        st1.buffer ((r * c8_console.width + c) * 2) = 32 ∧
        st1.buffer ((r * c8_console.width + c) * 2 + 1) =
          c8_console.write_attr.as_u8) ∧
      st1.clear = some st1 :=
  c8_clear_amended c8_console rfl (by decide) (by decide)

end NeotronOS

namespace NeotronOS

/-- The code's bright-promotion chain agrees with the specification's
sibling table pointwise. -/
theorem promote_bright_table (s : ConsoleInner) :
    ConsoleInner.promote_bright s = (if s.bright = true then
      { s with attr := s.attr.set_fg (bright_sibling s.attr.fg) } else s) := by
  unfold ConsoleInner.promote_bright bright_sibling
  by_cases hb : s.bright = true
  · rw [if_pos hb, if_pos hb]
    by_cases h0 : s.attr.fg = TextForegroundColour.BLACK
    · rw [if_pos h0, if_pos h0]
    rw [if_neg h0, if_neg h0]
    by_cases h1 : s.attr.fg = TextForegroundColour.RED
    · rw [if_pos h1, if_pos h1]
    rw [if_neg h1, if_neg h1]
    by_cases h2 : s.attr.fg = TextForegroundColour.GREEN
    · rw [if_pos h2, if_pos h2]
    rw [if_neg h2, if_neg h2]
    by_cases h3 : s.attr.fg = TextForegroundColour.BROWN
    · rw [if_pos h3, if_pos h3]
    rw [if_neg h3, if_neg h3]
    by_cases h4 : s.attr.fg = TextForegroundColour.BLUE
    · rw [if_pos h4, if_pos h4]
    rw [if_neg h4, if_neg h4]
    by_cases h5 : s.attr.fg = TextForegroundColour.MAGENTA
    · rw [if_pos h5, if_pos h5]
    rw [if_neg h5, if_neg h5]
    by_cases h6 : s.attr.fg = TextForegroundColour.CYAN
    · rw [if_pos h6, if_pos h6]
    rw [if_neg h6, if_neg h6]
    by_cases h7 : s.attr.fg = TextForegroundColour.LIGHT_GRAY
    · rw [if_pos h7, if_pos h7]
    rw [if_neg h7, if_neg h7]
    rfl
  · rw [if_neg hb, if_neg hb]

/-- C9: (1) within one `CSI ... m` sequence, after folding all parameters,
the code promotes a set bright flag exactly per the specification's
sibling table (`bright_sibling`) and leaves any other foreground
unchanged; (2) feeding the bytes of `ESC[1;33;44m` then `ESC[0m` through
the public byte interface, from any overlay-idle console, leaves the
stored attribute exactly at the default attribute with the bright and
reverse flags cleared. -/
theorem c9_sgr_bright_promotion :
    (∀ (st : ConsoleInner) (params : List Nat),
      ConsoleInner.sgr st params =
        (if (params.foldl ConsoleInner.sgr_param st).bright = true then
          { (params.foldl ConsoleInner.sgr_param st) with
            attr := (params.foldl ConsoleInner.sgr_param st).attr.set_fg
              (bright_sibling
                (params.foldl ConsoleInner.sgr_param st).attr.fg) }
        else params.foldl ConsoleInner.sgr_param st)) ∧
    (∀ (buf : Int → Nat) (w h r c : Int) (a : Attr) (br rv : Bool),
      (write_bstr ⟨⟨buf, w, h, r, c, a, br, rv, false, 0, none⟩,
          ParserState.ground⟩
        [27, 91, 49, 59, 51, 51, 59, 52, 52, 109, 27, 91, 48, 109]).map
        (fun v => (v.inner.attr, v.inner.bright, v.inner.reverse)) =
      some (ConsoleInner.DEFAULT_ATTR, false, false)) := by
  constructor
  · intro st params
    unfold ConsoleInner.sgr
    exact promote_bright_table _
  · intro buf w h r c a br rv
    rfl

end NeotronOS
